import Mathlib

/-!
bagme: page geometry resolution and flow placement.

A shallow embedding of `src/document/document.go` (package `document`).

The Go code is stateful: the receiver `*Document` is threaded through every
method.  Here each method is a function from the document state to the new
document state together with the returned values.  A Go runtime panic
(`bag.MustSp` on a malformed literal, a failed type assertion on a settings
value, a method call on a nil page) is the outcome `Outcome.panic`.  Lengths
are fixed-width Go integers: additions and subtractions wrap (`addSP`,
`subSP`).

Collaborators whose code lives in other packages (`bag`, `csshtml`,
`frontend`) are fields of the environment `Env`; every theorem quantifies over
the environment.
-/

namespace Bagme

/-- Modelled from the spec: `bag.ScaledPoint`, the Length value, a fixed-point
integer (spec, section 3).  The type declaration is in the `bag` package.  As
a Go integer type it has a fixed width, 64 bits here: a Length value is an
integer from `minSP` to `maxSP` (`InRange`), comparisons are those of the
integers, and the result of `+` and `-` is reduced into that range by
`wrap64`. -/
abbrev ScaledPoint := Int

/-- The least value of a 64-bit Go integer. -/
def minSP : ScaledPoint := -9223372036854775808

/-- The greatest value of a 64-bit Go integer. -/
def maxSP : ScaledPoint := 9223372036854775807

/-- The integer is a value of the fixed-width type. -/
def InRange (v : Int) : Prop :=
  -9223372036854775808 ≤ v ∧ v ≤ 9223372036854775807

/-- Two's complement wrap-around: the value of the fixed-width type that is
congruent to `v` modulo `2^64`. -/
def wrap64 (v : Int) : Int :=
  (v + 9223372036854775808) % 18446744073709551616 - 9223372036854775808

/-- Go `a + b` on `bag.ScaledPoint`. -/
def addSP (a b : Int) : Int := wrap64 (a + b)

/-- Go `a - b` on `bag.ScaledPoint`. -/
def subSP (a b : Int) : Int := wrap64 (a - b)

/-- A Go `error` value, identified by its message. -/
abbrev Err := String

/-- The result of running a piece of Go code: it returns, or it panics. -/
inductive Outcome (α : Type) where
  | ret (a : α)
  | panic
  deriving DecidableEq, Repr

/-- Sequencing: a panic aborts everything after it. -/
def Outcome.bind {α β : Type} (o : Outcome α) (f : α → Outcome β) : Outcome β :=
  match o with
  | Outcome.ret a => f a
  | Outcome.panic => Outcome.panic

/-- `PageDimensions contains the page size and the margins of the page.` -/
structure PageDimensions where
  Width : ScaledPoint
  Height : ScaledPoint
  MarginLeft : ScaledPoint
  MarginRight : ScaledPoint
  MarginTop : ScaledPoint
  MarginBottom : ScaledPoint
  deriving DecidableEq, Repr

/-- The Go zero value `PageDimensions{}`. -/
def PageDimensions.zero : PageDimensions :=
  { Width := 0, Height := 0, MarginLeft := 0, MarginRight := 0, MarginTop := 0, MarginBottom := 0 }

/-- The keys of `frontend.Text.Settings` that `OutputAt` reads; every other
key of the `frontend` package is `Other`. -/
inductive SettingType where
  | SettingIndentLeft
  | SettingIndentLeftRows
  | SettingMarginTop
  | SettingMarginBottom
  | Other (n : Nat)
  deriving DecidableEq, Repr

/-- A settings value has the dynamic type `any`; the type assertions of
`OutputAt` distinguish `bag.ScaledPoint`, `int` and everything else. -/
inductive SettingValue where
  | scaledPoint (v : ScaledPoint)
  | int (n : Int)
  | other (s : String)
  deriving DecidableEq, Repr

/-- The Go map `map[SettingType]any`, as an association list read by `getSetting`. -/
abbrev Settings := List (SettingType × SettingValue)

/-- The map read `v, ok := m[k]`: `some v` when `ok`, `none` otherwise. -/
def getSetting : Settings → SettingType → Option SettingValue
  | [], _ => none
  | (k, v) :: rest, key => if k = key then some v else getSetting rest key

/-- `frontend.Text`: content to be shaped (opaque here) and its settings. -/
structure Text where
  Settings : Settings
  Items : List String
  deriving DecidableEq, Repr

/-- The laid-out vertical unit returned by the typesetter. -/
structure VList where
  Width : ScaledPoint
  Height : ScaledPoint
  Depth : ScaledPoint
  deriving DecidableEq, Repr

/-- `frontend.TypesettingOption`; `OutputAt` builds only `frontend.IndentLeft`. -/
inductive TypesettingOption where
  | IndentLeft (amount : ScaledPoint) (rows : Int)
  deriving DecidableEq, Repr

/-- One placement made by `Page.OutputAt(x, y, vl)`. -/
structure PlacedObject where
  X : ScaledPoint
  Y : ScaledPoint
  Vlist : VList
  deriving DecidableEq, Repr

/-- Modelled from the spec: a page of the page sink (`document.Page` of the
backend), which records the units placed on it in order. -/
structure Page where
  Width : ScaledPoint
  Height : ScaledPoint
  Objects : List PlacedObject
  deriving DecidableEq, Repr

/-- Modelled from the spec: the page sink `d.doc.Doc` (the backend PDF
document): it holds the document-wide default page width and height and the
current page, `none` for Go `nil`. -/
structure PDFDocument where
  DefaultPageWidth : ScaledPoint
  DefaultPageHeight : ScaledPoint
  CurrentPage : Option Page
  deriving DecidableEq, Repr

/-- `csshtml.Page`: the default-page record of the style source. -/
structure CSSPage where
  Papersize : String
  MarginLeft : String
  MarginRight : String
  MarginTop : String
  MarginBottom : String
  deriving DecidableEq, Repr

/-- `csshtml.CSS`: the map `Pages` is read by `initPage`; the rest of the style
context is opaque to this package and kept as `Stylesheet`. -/
structure CSS where
  Pages : List (String × CSSPage)
  Stylesheet : List String
  deriving DecidableEq, Repr

/-- The map read `p, ok := c.Pages[name]`. -/
def getPage : List (String × CSSPage) → String → Option CSSPage
  | [], _ => none
  | (k, v) :: rest, name => if k = name then some v else getPage rest name

/-- Calls made to the collaborators, in order (instrumentation, not Go state). -/
inductive Event where
  | newPage
  | addCSSText (css : String)
  | readHTMLChunk (html : String)
  | applyCSS
  | parseSelection (sel : String) (width : ScaledPoint)
  | formatParagraph (te : Text) (width : ScaledPoint) (opts : List TypesettingOption)
  deriving DecidableEq, Repr

/-- `Document is the main starting point of the PDF generation.`  The field
`trace` is instrumentation: the log of collaborator calls. -/
structure Document where
  Title : String
  Author : String
  Keywords : String
  Creator : String
  Subject : String
  defaultFontsize : ScaledPoint
  currentPageDimensions : PageDimensions
  doc : PDFDocument
  c : CSS
  stylesStack : List String
  te : List Text
  trace : List Event
  deriving DecidableEq, Repr

/-- Modelled from the spec: the effect of the method `Document.parseSelection`,
whose file is not among the sources.  By the spec (sections 3 and 6) the style
source supplies, per content submission, the ordered sequence of styled text
blocks out of the opaque style context (stylesheet and style stack); so the
method leaves behind a style context, a style stack, a font size, the pending
queue and its error, and nothing else of the document. -/
structure Parsed where
  c : CSS
  stylesStack : List String
  defaultFontsize : ScaledPoint
  te : List Text
  err : Option Err

/-- The collaborators.

* `Sp` is `bag.Sp`, `PapersizeWdHt` is `csshtml.PapersizeWdHt`.
* `onecm` is the package variable `var onecm = bag.MustSp("1cm")`, set when
  the package is initialised (see `Env.Initialised`).
* `AddCSSText`, `ReadHTMLChunk`, `ApplyCSS` are the methods of `*csshtml.CSS`;
  each acts on the style context and returns the new one and its error.
* `FormatParagraph` is the typesetter `frontend.Document.FormatParagraph`.
* `parseSelection` is the method `Document.parseSelection` of this package,
  with the effect described at `Parsed`. -/
structure Env where
  Sp : String → Except Err ScaledPoint
  PapersizeWdHt : String → String × String
  onecm : ScaledPoint
  AddCSSText : CSS → String → CSS × Option Err
  ReadHTMLChunk : CSS → String → CSS × Option Err
  ApplyCSS : CSS → CSS × Except Err String
  parseSelection : Document → String → ScaledPoint → Parsed
  FormatParagraph : Text → ScaledPoint → List TypesettingOption → Except Err VList

/-- `bag.MustSp`: the value of `bag.Sp`, a panic when the literal is malformed. -/
def MustSp (env : Env) (s : String) : Outcome ScaledPoint :=
  match env.Sp s with
  | Except.ok v => Outcome.ret v
  | Except.error _ => Outcome.panic

/-- The package initialised: `onecm` holds `bag.MustSp("1cm")`. -/
def Env.Initialised (env : Env) : Prop :=
  MustSp env "1cm" = Outcome.ret env.onecm

/-- `d.doc.Doc.NewPage()`: a fresh page of the default size becomes current. -/
def NewPage (d : Document) : Document :=
  { d with
    doc := { d.doc with
      CurrentPage := some
        { Width := d.doc.DefaultPageWidth, Height := d.doc.DefaultPageHeight, Objects := [] } },
    trace := d.trace ++ [Event.newPage] }

/-- One margin of `initPage` (lines 49-77): `onecm` for the empty literal,
`bag.Sp` of the literal otherwise. -/
def marginSp (env : Env) (str : String) : Except Err ScaledPoint :=
  if str = "" then Except.ok env.onecm else env.Sp str

/-- `func (d *Document) initPage() error` (lines 36-108).
The result is the document afterwards and the returned error (`none` is `nil`). -/
def initPage (env : Env) (d : Document) : Outcome (Document × Option Err) :=
  match d.doc.CurrentPage with
  | some _ => Outcome.ret (d, none)
  | none =>
    match getPage d.c.Pages "" with
    | some defaultPage =>
      match env.Sp (env.PapersizeWdHt defaultPage.Papersize).1 with
      | Except.error err => Outcome.ret (d, some err)
      | Except.ok wd =>
      match env.Sp (env.PapersizeWdHt defaultPage.Papersize).2 with
      | Except.error err => Outcome.ret (d, some err)
      | Except.ok ht =>
      match marginSp env defaultPage.MarginTop with
      | Except.error err => Outcome.ret (d, some err)
      | Except.ok mt =>
      match marginSp env defaultPage.MarginBottom with
      | Except.error err => Outcome.ret (d, some err)
      | Except.ok mb =>
      match marginSp env defaultPage.MarginLeft with
      | Except.error err => Outcome.ret (d, some err)
      | Except.ok ml =>
      match marginSp env defaultPage.MarginRight with
      | Except.error err => Outcome.ret (d, some err)
      | Except.ok mr =>
        Outcome.ret
          (NewPage
            { d with
              doc := { d.doc with DefaultPageWidth := wd, DefaultPageHeight := ht },
              currentPageDimensions :=
                { Width := wd, Height := ht, MarginTop := mt, MarginBottom := mb,
                  MarginLeft := ml, MarginRight := mr } },
           none)
    | none =>
      (MustSp env "210mm").bind fun w =>
      (MustSp env "297mm").bind fun h =>
        Outcome.ret
          (NewPage
            { d with
              doc := { d.doc with DefaultPageWidth := w, DefaultPageHeight := h },
              currentPageDimensions :=
                { Width := w, Height := h, MarginTop := env.onecm, MarginBottom := env.onecm,
                  MarginLeft := env.onecm, MarginRight := env.onecm } },
           none)

/-- `func (d *Document) PageSize() (PageDimensions, error)` (lines 111-117). -/
def PageSize (env : Env) (d : Document) : Outcome (Document × PageDimensions × Option Err) :=
  (initPage env d).bind fun r =>
    match r.2 with
    | some err => Outcome.ret (r.1, PageDimensions.zero, some err)
    | none => Outcome.ret (r.1, r.1.currentPageDimensions, none)

/-- `func (d *Document) ParseCSSString(css string) error` (lines 120-126). -/
def ParseCSSString (env : Env) (d : Document) (css : String) : Document × Option Err :=
  ({ d with c := (env.AddCSSText d.c css).1, trace := d.trace ++ [Event.addCSSText css] },
   (env.AddCSSText d.c css).2)

/-- The shaping options of a block (lines 144-151). -/
def indentOptions (te : Text) : Outcome (List TypesettingOption) :=
  match getSetting te.Settings SettingType.SettingIndentLeft with
  | some indent =>
    match getSetting te.Settings SettingType.SettingIndentLeftRows with
    | some rows =>
      match indent, rows with
      | SettingValue.scaledPoint a, SettingValue.int r =>
        Outcome.ret [TypesettingOption.IndentLeft a r]
      | _, _ => Outcome.panic
    | none =>
      match indent with
      | SettingValue.scaledPoint a => Outcome.ret [TypesettingOption.IndentLeft a 1]
      | _ => Outcome.panic
  | none => Outcome.ret []

/-- The type assertion `v.(bag.ScaledPoint)`. -/
def asScaledPoint : SettingValue → Outcome ScaledPoint
  | SettingValue.scaledPoint v => Outcome.ret v
  | _ => Outcome.panic

/-- The variable `additionalMargin` at line 171, for the block `te` at index
`i` of the pending queue `tes` (lines 158-170). -/
def additionalMargin (tes : List Text) (i : Nat) (te : Text) : Outcome ScaledPoint :=
  (match getSetting te.Settings SettingType.SettingMarginBottom with
    | some mb => asScaledPoint mb
    | none => Outcome.ret 0).bind fun am =>
  if i + 1 < tes.length then
    match tes[i + 1]? with
    | some next =>
      match getSetting next.Settings SettingType.SettingMarginTop with
      | some mt =>
        (asScaledPoint mt).bind fun marginTop =>
          if marginTop > am then Outcome.ret marginTop else Outcome.ret am
      | none => Outcome.ret am
    | none => Outcome.panic
  else Outcome.ret am

/-- The body of the loop of `OutputAt` (lines 144-171) for block `te` at index
`i`, started with cursor `y`.  It gives the document, the cursor and the error
with which the body leaves (`some err` is `return err`).  The cursor is
`y -= vl.Height + vl.Depth` (line 157) followed by `y -= additionalMargin`
(line 171), in the wrapping arithmetic of the Go type. -/
def placeStep (env : Env) (tes : List Text) (width x : ScaledPoint) (i : Nat) (te : Text)
    (d : Document) (y : ScaledPoint) : Outcome (Document × ScaledPoint × Option Err) :=
  (indentOptions te).bind fun opts =>
    match env.FormatParagraph te width opts with
    | Except.error err =>
      Outcome.ret ({ d with trace := d.trace ++ [Event.formatParagraph te width opts] }, y, some err)
    | Except.ok vl =>
      match d.doc.CurrentPage with
      | none => Outcome.panic
      | some page =>
        (additionalMargin tes i te).bind fun am =>
          Outcome.ret
            ({ d with
               doc := { d.doc with
                 CurrentPage := some { page with Objects := page.Objects ++ [⟨x, y, vl⟩] } },
               trace := d.trace ++ [Event.formatParagraph te width opts] },
             subSP (subSP y (addSP vl.Height vl.Depth)) am, none)

/-- The loop `for i, te := range d.te` (lines 143-172): `todo` holds the
blocks not yet visited and `i` is the index of its head in `tes`, the queue
the loop ranges over (the body reads `len(d.te)` and `d.te[i+1]` from it). -/
def placeLoop (env : Env) (tes : List Text) (width x : ScaledPoint) :
    List Text → Nat → Document → ScaledPoint → Outcome (Document × ScaledPoint × Option Err)
  | [], _, d, y => Outcome.ret (d, y, none)
  | te :: rest, i, d, y =>
    (placeStep env tes width x i te d y).bind fun r =>
      match r.2.2 with
      | some err => Outcome.ret (r.1, r.2.1, some err)
      | none => placeLoop env tes width x rest (i + 1) r.1 r.2.1

/-- Lines 133-142 of `OutputAt`: the content is read, styled and turned into
pending blocks.  The result is the document afterwards and the error. -/
def readContent (env : Env) (d : Document) (html : String) (width : ScaledPoint) :
    Document × Option Err :=
  let d1 : Document :=
    { d with c := (env.ReadHTMLChunk d.c html).1, trace := d.trace ++ [Event.readHTMLChunk html] }
  match (env.ReadHTMLChunk d.c html).2 with
  | some err => (d1, some err)
  | none =>
    let d2 : Document :=
      { d1 with c := (env.ApplyCSS d1.c).1, trace := d1.trace ++ [Event.applyCSS] }
    match (env.ApplyCSS d1.c).2 with
    | Except.error err => (d2, some err)
    | Except.ok sel =>
      let p := env.parseSelection d2 sel width
      ({ d2 with
         c := p.c, stylesStack := p.stylesStack, defaultFontsize := p.defaultFontsize,
         te := p.te, trace := d2.trace ++ [Event.parseSelection sel width] },
       p.err)

/-- `func (d *Document) OutputAt(html string, width, x, y bag.ScaledPoint) error`
(lines 129-176). -/
def OutputAt (env : Env) (d : Document) (html : String) (width x y : ScaledPoint) :
    Outcome (Document × Option Err) :=
  (initPage env d).bind fun r =>
    match r.2 with
    | some err => Outcome.ret (r.1, some err)
    | none =>
      match (readContent env r.1 html width).2 with
      | some err => Outcome.ret ((readContent env r.1 html width).1, some err)
      | none =>
        (placeLoop env (readContent env r.1 html width).1.te width x
            (readContent env r.1 html width).1.te 0 (readContent env r.1 html width).1 y).bind
          fun l =>
            match l.2.2 with
            | some err => Outcome.ret (l.1, some err)
            | none => Outcome.ret ({ l.1 with te := [] }, none)

/-! ## Operations of the public surface, as a state machine -/

/-- The calls a client makes on a document. -/
inductive Op where
  | ensurePage
  | pageSize
  | parseCSSString (css : String)
  | outputAt (html : String) (width x y : ScaledPoint)
  deriving DecidableEq, Repr

/-- One call: the document afterwards (the returned values are dropped). -/
def step (env : Env) (d : Document) : Op → Outcome Document
  | Op.ensurePage => (initPage env d).bind fun r => Outcome.ret r.1
  | Op.pageSize => (PageSize env d).bind fun r => Outcome.ret r.1
  | Op.parseCSSString css => Outcome.ret (ParseCSSString env d css).1
  | Op.outputAt html width x y => (OutputAt env d html width x y).bind fun r => Outcome.ret r.1

/-- A sequence of calls, each on the document the previous one left. -/
def run (env : Env) : Document → List Op → Outcome Document
  | d, [] => Outcome.ret d
  | d, op :: ops => (step env d op).bind fun d1 => run env d1 ops

/-- The number of pages the sink was asked to create. -/
def pagesCreated (d : Document) : Nat :=
  d.trace.count Event.newPage

/-! ## Vocabulary of the specification -/

/-- The literal `s` is well formed for `bag.Sp`. -/
def parses (env : Env) (s : String) : Bool :=
  match env.Sp s with
  | Except.ok _ => true
  | Except.error _ => false

/-- The default-page style `p` contains a malformed length literal: the width
or height literal of its paper size, or a margin literal that is not empty. -/
def Malformed (env : Env) (p : CSSPage) : Prop :=
  parses env (env.PapersizeWdHt p.Papersize).1 = false ∨
  parses env (env.PapersizeWdHt p.Papersize).2 = false ∨
  (p.MarginTop ≠ "" ∧ parses env p.MarginTop = false) ∨
  (p.MarginBottom ≠ "" ∧ parses env p.MarginBottom = false) ∨
  (p.MarginLeft ≠ "" ∧ parses env p.MarginLeft = false) ∨
  (p.MarginRight ≠ "" ∧ parses env p.MarginRight = false)

/-- Every literal of the default-page style `p` is well formed. -/
def WellFormed (env : Env) (p : CSSPage) : Prop :=
  parses env (env.PapersizeWdHt p.Papersize).1 = true ∧
  parses env (env.PapersizeWdHt p.Papersize).2 = true ∧
  (p.MarginTop = "" ∨ parses env p.MarginTop = true) ∧
  (p.MarginBottom = "" ∨ parses env p.MarginBottom = true) ∧
  (p.MarginLeft = "" ∨ parses env p.MarginLeft = true) ∧
  (p.MarginRight = "" ∨ parses env p.MarginRight = true)

/-- The literal the specification substitutes for an unspecified margin. -/
def marginLiteral (str : String) : String :=
  if str = "" then "1cm" else str

/-- The Length declared under key `k`: `some v` for a declared Length, `none`
when the key is unset. -/
def declared (te : Text) (k : SettingType) : Option ScaledPoint :=
  match getSetting te.Settings k with
  | some (SettingValue.scaledPoint v) => some v
  | _ => none

/-- The setting is unset or holds a Length (the typing of section 3 of the spec). -/
def lengthOrUnset : Option SettingValue → Bool
  | none => true
  | some (SettingValue.scaledPoint _) => true
  | some _ => false

/-- Both margins of the block are unset or Lengths. -/
def marginsTyped (te : Text) : Bool :=
  lengthOrUnset (getSetting te.Settings SettingType.SettingMarginTop) &&
  lengthOrUnset (getSetting te.Settings SettingType.SettingMarginBottom)

/-- The block shapes successfully: its options can be built and the
typesetter returns a unit for it. -/
def shapes (env : Env) (width : ScaledPoint) (te : Text) : Bool :=
  match indentOptions te with
  | Outcome.ret opts =>
    match env.FormatParagraph te width opts with
    | Except.ok _ => true
    | Except.error _ => false
  | Outcome.panic => false

/-- The options the block is shaped with. -/
def optsOf (te : Text) : List TypesettingOption :=
  match indentOptions te with
  | Outcome.ret opts => opts
  | Outcome.panic => []

/-- The unit the typesetter returns for the block. -/
def shaped (env : Env) (width : ScaledPoint) (te : Text) : VList :=
  match env.FormatParagraph te width (optsOf te) with
  | Except.ok vl => vl
  | Except.error _ => ⟨0, 0, 0⟩

/-- The margin gap of the specification, in its words: the bottom margin of
the block (0 if unset) for the last block, otherwise the larger of the bottom
margin of the block and the top margin of its successor, 0 for any unset side. -/
def specGap (te : Text) (next : Option Text) : ScaledPoint :=
  match next with
  | none => (declared te SettingType.SettingMarginBottom).getD 0
  | some n =>
    max ((declared te SettingType.SettingMarginBottom).getD 0)
      ((declared n SettingType.SettingMarginTop).getD 0)

/-- The margin gap with an unset top margin of the successor taking no part:
the bottom margin of the block (0 if unset) when there is no successor or the
successor declares no top margin, otherwise the larger of that and the
declared top margin of the successor. -/
def collapsedGap (te : Text) (next : Option Text) : ScaledPoint :=
  match next with
  | none => (declared te SettingType.SettingMarginBottom).getD 0
  | some n =>
    match declared n SettingType.SettingMarginTop with
    | none => (declared te SettingType.SettingMarginBottom).getD 0
    | some mt => max ((declared te SettingType.SettingMarginBottom).getD 0) mt

/-- What block `j` of the queue takes from the cursor: height, depth and gap. -/
def advance (env : Env) (width : ScaledPoint) (tes : List Text) (j : Nat) : ScaledPoint :=
  match tes[j]? with
  | none => 0
  | some te =>
    (shaped env width te).Height + (shaped env width te).Depth + collapsedGap te tes[j + 1]?

/-- The sum over all `j < k` of height, depth and gap of block `j`, as an
exact integer. -/
def offset (env : Env) (width : ScaledPoint) (tes : List Text) : Nat → ScaledPoint
  | 0 => 0
  | k + 1 => offset env width tes k + advance env width tes k

/-- The cursor at which block `k` of the queue is reached for a call with the
cursor `y`: `y` itself for the first block, and for a later block `y` less the
offset of `k`, wrapped into the fixed-width type. -/
def cursorAt (env : Env) (width y : ScaledPoint) (tes : List Text) : Nat → ScaledPoint
  | 0 => y
  | k + 1 => wrap64 (y - offset env width tes (k + 1))

/-- The placement of block `k` of the queue for a call at `(x, y)`. -/
def placedAt (env : Env) (width x y : ScaledPoint) (tes : List Text) (k : Nat) : PlacedObject :=
  match tes[k]? with
  | none => ⟨x, y, ⟨0, 0, 0⟩⟩
  | some te => ⟨x, cursorAt env width y tes k, shaped env width te⟩

/-- The typesetter call made for a block. -/
def shapeEvent (width : ScaledPoint) (te : Text) : Event :=
  Event.formatParagraph te width (optsOf te)

/-- The document `d` after `objs` were placed on its page `page` and the
calls `evs` were made. -/
def withPlaced (d : Document) (page : Page) (objs : List PlacedObject) (evs : List Event) :
    Document :=
  { d with
    doc := { d.doc with CurrentPage := some { page with Objects := page.Objects ++ objs } },
    trace := d.trace ++ evs }

/-- The cursor with which the loop body leaves block `i`, when it completes. -/
def cursorAfter (env : Env) (tes : List Text) (width x : ScaledPoint) (i : Nat) (te : Text)
    (d : Document) (y : ScaledPoint) : Option ScaledPoint :=
  match placeStep env tes width x i te d y with
  | Outcome.ret (_, c, none) => some c
  | _ => none

/-- The geometry of `d` is kept in `d1`: the page is active, the stored
`PageDimensions` and the sink defaults are those of `d`, and the sink was
asked for no further page. -/
def GeometryKept (d d1 : Document) : Prop :=
  d1.doc.CurrentPage ≠ none ∧
  d1.currentPageDimensions = d.currentPageDimensions ∧
  d1.doc.DefaultPageWidth = d.doc.DefaultPageWidth ∧
  d1.doc.DefaultPageHeight = d.doc.DefaultPageHeight ∧
  pagesCreated d1 = pagesCreated d

/-- The typesetter fails on the block: its options can be built and
`FormatParagraph` returns this error. -/
def shapeError (env : Env) (width : ScaledPoint) (te : Text) : Option Err :=
  match indentOptions te with
  | Outcome.ret opts =>
    match env.FormatParagraph te width opts with
    | Except.ok _ => none
    | Except.error e => some e
  | Outcome.panic => none

/-- The event is a call of the typesetter. -/
def isShapeCall : Event → Bool
  | Event.formatParagraph _ _ _ => true
  | _ => false

/-- The event is a call into the content parsing of the style source. -/
def isContentCall : Event → Bool
  | Event.readHTMLChunk _ => true
  | Event.applyCSS => true
  | Event.parseSelection _ _ => true
  | _ => false

/-- The calls of the typesetter made so far, in order. -/
def shapeCalls (d : Document) : List Event :=
  d.trace.filter isShapeCall

/-- The units placed on the current page so far, in order. -/
def placedObjects (d : Document) : List PlacedObject :=
  match d.doc.CurrentPage with
  | some page => page.Objects
  | none => []

/-- The parse error of a literal, if `bag.Sp` rejects it. -/
def parseError (env : Env) (s : String) : Option Err :=
  match env.Sp s with
  | Except.ok _ => none
  | Except.error e => some e

/-- The literals of a default-page style that are parsed, in the order width,
height, top, bottom, left, right; a margin left empty is not parsed. -/
def styleLiterals (env : Env) (p : CSSPage) : List String :=
  [(env.PapersizeWdHt p.Papersize).1, (env.PapersizeWdHt p.Papersize).2] ++
    [p.MarginTop, p.MarginBottom, p.MarginLeft, p.MarginRight].filter (fun s => decide (s ≠ ""))

/-- The parse error of the first literal of the style that fails to parse. -/
def firstParseError (env : Env) (p : CSSPage) : Option Err :=
  (styleLiterals env p).findSome? (parseError env)

/-- The indent option of the specification: present exactly when `indentLeft`
is, with the row count `indentLeftRows`, 1 when that is absent. -/
def specIndent (indent : Option ScaledPoint) (rows : Option Int) : List TypesettingOption :=
  match indent with
  | none => []
  | some a => [TypesettingOption.IndentLeft a (rows.getD 1)]

/-- The typing of the settings `OutputAt` reads on a block before it shapes
it: `indentLeft` is unset or a Length, and next to a set `indentLeft` the key
`indentLeftRows` is unset or an `int`. -/
def indentTyped (te : Text) : Bool :=
  match getSetting te.Settings SettingType.SettingIndentLeft with
  | none => true
  | some (SettingValue.scaledPoint _) =>
    match getSetting te.Settings SettingType.SettingIndentLeftRows with
    | none => true
    | some (SettingValue.int _) => true
    | some _ => false
  | some _ => false

/-- The height and depth the block is shaped to and the margins it declares
are not negative. -/
def nonNegative (env : Env) (width : ScaledPoint) (te : Text) : Bool :=
  decide (0 ≤ (shaped env width te).Height) && decide (0 ≤ (shaped env width te).Depth) &&
  decide (0 ≤ (declared te SettingType.SettingMarginTop).getD 0) &&
  decide (0 ≤ (declared te SettingType.SettingMarginBottom).getD 0)

/-! ## Sample data -/

/-- One point in scaled points. -/
def pt : ScaledPoint := 65536

/-- A length parser that knows a handful of literals. -/
def sampleSp (s : String) : Except Err ScaledPoint :=
  if s = "1cm" then Except.ok 1857713
  else if s = "2cm" then Except.ok 3715426
  else if s = "210mm" then Except.ok 39011981
  else if s = "297mm" then Except.ok 55174088
  else Except.error "unknown unit"

/-- A paper-size table with the single entry A4. -/
def samplePapersize (name : String) : String × String :=
  if name = "A4" then ("210mm", "297mm") else (name, name)

/-- A typesetter: every block is 10pt high and 2pt deep, except that the
block with the single item `overflow` cannot be shaped. -/
def sampleFormat (te : Text) (width : ScaledPoint) (_opts : List TypesettingOption) :
    Except Err VList :=
  if te.Items = ["overflow"] then Except.error "overflow"
  else Except.ok ⟨width, 10 * pt, 2 * pt⟩

/-- A style source: style text is appended to the stylesheet, and a content
fragment `two` yields the two blocks A (bottom margin 5pt) and B (top margin
8pt); any other fragment yields one block without settings. -/
def sampleEnv : Env :=
  { Sp := sampleSp,
    PapersizeWdHt := samplePapersize,
    onecm := 1857713,
    AddCSSText := fun c css => ({ c with Stylesheet := c.Stylesheet ++ [css] }, none),
    ReadHTMLChunk := fun c html => ({ c with Stylesheet := c.Stylesheet ++ [html] }, none),
    ApplyCSS := fun c => (c, Except.ok (c.Stylesheet.getLastD "")),
    parseSelection := fun d sel _ =>
      { c := d.c, stylesStack := d.stylesStack, defaultFontsize := d.defaultFontsize,
        te := d.te ++
          (if sel = "two" then
            [⟨[(SettingType.SettingMarginBottom, SettingValue.scaledPoint (5 * pt))], ["A"]⟩,
             ⟨[(SettingType.SettingMarginTop, SettingValue.scaledPoint (8 * pt))], ["B"]⟩]
           else [⟨[], [sel]⟩]),
        err := none },
    FormatParagraph := sampleFormat }

/-- A freshly created document with the given style context: no page yet. -/
def freshDoc (c : CSS) : Document :=
  { Title := "", Author := "", Keywords := "", Creator := "", Subject := "",
    defaultFontsize := 0,
    currentPageDimensions := PageDimensions.zero,
    doc := { DefaultPageWidth := 0, DefaultPageHeight := 0, CurrentPage := none },
    c := c, stylesStack := [], te := [], trace := [] }

/-- A style context without a default page. -/
def noStyle : CSS := { Pages := [], Stylesheet := [] }

/-- A style context whose default page has the record `p`. -/
def styleOf (p : CSSPage) : CSS := { Pages := [("", p)], Stylesheet := [] }

/-- The default page A4 with all four margins left empty. -/
def a4Page : CSSPage :=
  { Papersize := "A4", MarginLeft := "", MarginRight := "", MarginTop := "", MarginBottom := "" }

/-- A default page with a malformed left margin. -/
def badPage : CSSPage :=
  { Papersize := "A4", MarginLeft := "1 furlong", MarginRight := "", MarginTop := "2cm",
    MarginBottom := "" }

/-- A default page with two margins given. -/
def goodPage : CSSPage :=
  { Papersize := "A4", MarginLeft := "2cm", MarginRight := "", MarginTop := "2cm",
    MarginBottom := "" }

/-- A document with an active, empty A4 page. -/
def activeDoc : Document :=
  { freshDoc noStyle with
    doc := { DefaultPageWidth := 39011981, DefaultPageHeight := 55174088,
             CurrentPage := some { Width := 39011981, Height := 55174088, Objects := [] } },
    trace := [Event.newPage] }

/-- Block A of property P3: bottom margin 5pt. -/
def blockA : Text :=
  ⟨[(SettingType.SettingMarginBottom, SettingValue.scaledPoint (5 * pt))], ["A"]⟩

/-- Block B of property P3: top margin 8pt. -/
def blockB : Text :=
  ⟨[(SettingType.SettingMarginTop, SettingValue.scaledPoint (8 * pt))], ["B"]⟩

/-- A block without settings. -/
def plainBlock : Text := ⟨[], ["plain"]⟩

/-- A block with a negative bottom margin of -5pt. -/
def pullUp : Text :=
  ⟨[(SettingType.SettingMarginBottom, SettingValue.scaledPoint (-5 * pt))], ["pull"]⟩

/-- The fresh sample document without a style after its page was resolved. -/
def resolvedDoc : Document :=
  NewPage
    { freshDoc noStyle with
      doc := { DefaultPageWidth := 39011981, DefaultPageHeight := 55174088, CurrentPage := none },
      currentPageDimensions :=
        { Width := 39011981, Height := 55174088, MarginLeft := 1857713, MarginRight := 1857713,
          MarginTop := 1857713, MarginBottom := 1857713 } }

/-- A session on the sample document: a size query, a style submission, a
placement that succeeds, another resolution, a placement on which the
typesetter fails, and a last size query. -/
def sampleOps : List Op :=
  [Op.pageSize, Op.parseCSSString "@page :first", Op.outputAt "two" (400 * pt) 0 (800 * pt),
   Op.ensurePage, Op.outputAt "overflow" (400 * pt) 0 (700 * pt), Op.pageSize]

/-- The block the sample typesetter cannot shape. -/
def overflowBlock : Text := ⟨[], ["overflow"]⟩

/-- A block with a left indent of 12pt and no row count. -/
def indentBlock : Text :=
  ⟨[(SettingType.SettingIndentLeft, SettingValue.scaledPoint (12 * pt))], ["indent"]⟩

/-- A block with a row count of 3 but no left indent. -/
def rowsOnlyBlock : Text :=
  ⟨[(SettingType.SettingIndentLeftRows, SettingValue.int 3)], ["rows"]⟩

/-- A style source like the sample one, except that the fragment `fail` yields
block A, the unshapeable block and block B, and the fragment `none` yields no
block at all. -/
def queueEnv : Env :=
  { sampleEnv with
    parseSelection := fun d sel _ =>
      { c := d.c, stylesStack := d.stylesStack, defaultFontsize := d.defaultFontsize,
        te := d.te ++
          (if sel = "fail" then [blockA, overflowBlock, blockB]
           else if sel = "none" then []
           else [plainBlock, blockB]),
        err := none } }

/-- The fresh sample document after the fragment `some` was placed at (0, 800pt). -/
def drainedDoc : Document :=
  match OutputAt queueEnv (freshDoc noStyle) "some" (400 * pt) 0 (800 * pt) with
  | Outcome.ret r => r.1
  | Outcome.panic => freshDoc noStyle

/-- The sample environment with a parser whose error names the literal. -/
def namingEnv : Env :=
  { sampleEnv with
    Sp := fun s =>
      match sampleSp s with
      | Except.ok v => Except.ok v
      | Except.error _ => Except.error s }

/-- A default page with a malformed bottom margin and a malformed left margin. -/
def twoBadPage : CSSPage :=
  { Papersize := "A4", MarginLeft := "1 furlong", MarginRight := "", MarginTop := "",
    MarginBottom := "1 ell" }

/-- Three blocks of the sample typesetter (12pt each): bottom margin 5pt, then
top margin 8pt, then no settings. -/
def threeBlocks : List Text := [blockA, blockB, plainBlock]

/-! ## Basic facts -/

theorem wrap64_of_inRange {v : Int} (h : InRange v) : wrap64 v = v := by
  unfold InRange at h
  unfold wrap64
  omega

theorem wrap64_inRange (v : Int) : InRange (wrap64 v) := by
  unfold InRange wrap64
  omega

/-- Two subtractions of the loop body in one: only the exact difference
matters, modulo `2^64`. -/
theorem subSP_step (a h d g : Int) :
    subSP (subSP a (addSP h d)) g = wrap64 (a - (h + d) - g) := by
  unfold subSP addSP wrap64
  omega

theorem wrap64_sub_wrap (a b : Int) : wrap64 (wrap64 a - b) = wrap64 (a - b) := by
  unfold wrap64
  omega

theorem subSP_step_wrap (a h d g : Int) :
    subSP (subSP (wrap64 a) (addSP h d)) g = wrap64 (a - (h + d) - g) := by
  unfold subSP addSP wrap64
  omega

@[simp] theorem Outcome.bind_ret {α β : Type} (a : α) (f : α → Outcome β) :
    (Outcome.ret a).bind f = f a := rfl

@[simp] theorem Outcome.bind_panic {α β : Type} (f : α → Outcome β) :
    (Outcome.panic : Outcome α).bind f = Outcome.panic := rfl

theorem parses_eq_false {env : Env} {s : String} (h : parses env s = false) :
    ∃ e, env.Sp s = Except.error e := by
  unfold parses at h
  cases hs : env.Sp s with
  | error e => exact ⟨e, rfl⟩
  | ok v => simp [hs] at h

theorem parses_eq_true {env : Env} {s : String} (h : parses env s = true) :
    ∃ v, env.Sp s = Except.ok v := by
  unfold parses at h
  cases hs : env.Sp s with
  | error e => simp [hs] at h
  | ok v => exact ⟨v, rfl⟩

theorem marginSp_of_wellFormed {env : Env} {s : String} (h : s = "" ∨ parses env s = true) :
    ∃ v, marginSp env s = Except.ok v := by
  unfold marginSp
  by_cases hs : s = ""
  · exact ⟨env.onecm, by simp [hs]⟩
  · rcases h with h | h
    · exact absurd h hs
    · obtain ⟨v, hv⟩ := parses_eq_true h
      exact ⟨v, by simp [hs, hv]⟩

theorem marginSp_of_malformed {env : Env} {s : String} (h : s ≠ "" ∧ parses env s = false) :
    ∃ e, marginSp env s = Except.error e := by
  obtain ⟨e, he⟩ := parses_eq_false h.2
  exact ⟨e, by simp [marginSp, h.1, he]⟩

theorem marginSp_of_literal {env : Env} (hinit : env.Initialised) {s : String} {v : ScaledPoint}
    (h : env.Sp (marginLiteral s) = Except.ok v) : marginSp env s = Except.ok v := by
  unfold marginSp
  by_cases hs : s = ""
  · have h1 : env.Sp "1cm" = Except.ok v := by simpa [marginLiteral, hs] using h
    have h2 : MustSp env "1cm" = Outcome.ret env.onecm := hinit
    simp only [MustSp, h1] at h2
    injection h2 with h2
    simp [hs, h2]
  · simpa [marginLiteral, hs] using h

/-- A page that exists makes `initPage` return at once. -/
theorem initPage_of_page (env : Env) (d : Document) (h : d.doc.CurrentPage ≠ none) :
    initPage env d = Outcome.ret (d, none) := by
  unfold initPage
  cases hp : d.doc.CurrentPage with
  | none => exact absurd hp h
  | some p => rfl

/-- The style path of `initPage` when every literal parses. -/
theorem initPage_style (env : Env) (d : Document) (p : CSSPage) (wd ht mt mb ml mr : ScaledPoint)
    (hpage : d.doc.CurrentPage = none) (hstyle : getPage d.c.Pages "" = some p)
    (hwd : env.Sp (env.PapersizeWdHt p.Papersize).1 = Except.ok wd)
    (hht : env.Sp (env.PapersizeWdHt p.Papersize).2 = Except.ok ht)
    (hmt : marginSp env p.MarginTop = Except.ok mt)
    (hmb : marginSp env p.MarginBottom = Except.ok mb)
    (hml : marginSp env p.MarginLeft = Except.ok ml)
    (hmr : marginSp env p.MarginRight = Except.ok mr) :
    initPage env d = Outcome.ret
      (NewPage
        { d with
          doc := { d.doc with DefaultPageWidth := wd, DefaultPageHeight := ht },
          currentPageDimensions :=
            { Width := wd, Height := ht, MarginTop := mt, MarginBottom := mb,
              MarginLeft := ml, MarginRight := mr } },
       none) := by
  unfold initPage
  simp only [hpage, hstyle, hwd, hht, hmt, hmb, hml, hmr]

/-- The fallback path of `initPage` when the two size literals parse. -/
theorem initPage_fallback (env : Env) (d : Document) (w h : ScaledPoint)
    (hpage : d.doc.CurrentPage = none) (hstyle : getPage d.c.Pages "" = none)
    (hw : env.Sp "210mm" = Except.ok w) (hh : env.Sp "297mm" = Except.ok h) :
    initPage env d = Outcome.ret
      (NewPage
        { d with
          doc := { d.doc with DefaultPageWidth := w, DefaultPageHeight := h },
          currentPageDimensions :=
            { Width := w, Height := h, MarginTop := env.onecm, MarginBottom := env.onecm,
              MarginLeft := env.onecm, MarginRight := env.onecm } },
       none) := by
  unfold initPage
  simp only [hpage, hstyle, MustSp, hw, hh, Outcome.bind_ret]

/-- The style path of `initPage` on a malformed literal: the error comes back
and the document is the one it was called on. -/
theorem initPage_malformed (env : Env) (d : Document) (p : CSSPage)
    (hpage : d.doc.CurrentPage = none) (hstyle : getPage d.c.Pages "" = some p)
    (hbad : Malformed env p) : ∃ e, initPage env d = Outcome.ret (d, some e) := by
  unfold initPage
  simp only [hpage, hstyle]
  cases hwd : env.Sp (env.PapersizeWdHt p.Papersize).1 with
  | error e => exact ⟨e, rfl⟩
  | ok wd =>
  cases hht : env.Sp (env.PapersizeWdHt p.Papersize).2 with
  | error e => exact ⟨e, rfl⟩
  | ok ht =>
  cases hmt : marginSp env p.MarginTop with
  | error e => exact ⟨e, rfl⟩
  | ok mt =>
  cases hmb : marginSp env p.MarginBottom with
  | error e => exact ⟨e, rfl⟩
  | ok mb =>
  cases hml : marginSp env p.MarginLeft with
  | error e => exact ⟨e, rfl⟩
  | ok ml =>
  cases hmr : marginSp env p.MarginRight with
  | error e => exact ⟨e, rfl⟩
  | ok mr =>
    exfalso
    rcases hbad with h | h | h | h | h | h
    · obtain ⟨e, he⟩ := parses_eq_false h
      rw [hwd] at he
      cases he
    · obtain ⟨e, he⟩ := parses_eq_false h
      rw [hht] at he
      cases he
    · obtain ⟨e, he⟩ := marginSp_of_malformed h
      rw [hmt] at he
      cases he
    · obtain ⟨e, he⟩ := marginSp_of_malformed h
      rw [hmb] at he
      cases he
    · obtain ⟨e, he⟩ := marginSp_of_malformed h
      rw [hml] at he
      cases he
    · obtain ⟨e, he⟩ := marginSp_of_malformed h
      rw [hmr] at he
      cases he

/-- What a call of `initPage` that returns no error has done: nothing, or it
has stored dimensions, set the sink defaults and created one page. -/
theorem initPage_ok_cases (env : Env) (d d1 : Document)
    (h : initPage env d = Outcome.ret (d1, none)) :
    (d.doc.CurrentPage ≠ none ∧ d1 = d) ∨ ∃ (w ht : ScaledPoint) (dims : PageDimensions),
      d.doc.CurrentPage = none ∧
      d1 = NewPage { d with
        doc := { d.doc with DefaultPageWidth := w, DefaultPageHeight := ht },
        currentPageDimensions := dims } := by
  cases hp : d.doc.CurrentPage with
  | some pg =>
    have h0 := initPage_of_page env d (by simp [hp])
    rw [h0] at h
    injection h with h
    injection h with h1 _
    exact Or.inl ⟨by simp [hp], h1.symm⟩
  | none =>
    right
    cases hs : getPage d.c.Pages "" with
    | some p =>
      unfold initPage at h
      simp only [hp, hs] at h
      split at h
      · simp at h
      · split at h
        · simp at h
        · split at h
          · simp at h
          · split at h
            · simp at h
            · split at h
              · simp at h
              · split at h
                · simp at h
                · injection h with h
                  injection h with h1 _
                  exact ⟨_, _, _, rfl, h1.symm⟩
    | none =>
      unfold initPage at h
      simp only [hp, hs] at h
      cases hw : MustSp env "210mm" with
      | panic => simp [hw] at h
      | ret w =>
        cases hh : MustSp env "297mm" with
        | panic => simp [hw, hh] at h
        | ret ht =>
          simp only [hw, hh, Outcome.bind_ret] at h
          injection h with h
          injection h with h1 _
          exact ⟨_, _, _, rfl, h1.symm⟩

/-- Whatever `initPage` returns without an error, a page exists afterwards. -/
theorem initPage_ok_page (env : Env) (d d1 : Document)
    (h : initPage env d = Outcome.ret (d1, none)) : d1.doc.CurrentPage ≠ none := by
  rcases initPage_ok_cases env d d1 h with ⟨hp, h1⟩ | ⟨w, ht, dims, _, h1⟩
  · subst h1
    exact hp
  · subst h1
    simp [NewPage]

/-! ## Dimension resolver -/

/-- C5. Atomic failure of page resolution: on a document without a page whose
default-page style holds a malformed length literal (width, height or a
non-empty margin), `initPage` returns an error and the document it leaves is
exactly the document it was called on; and once the style is replaced by one
whose literals are all well formed, `initPage` on that document returns no
error, creates the one page and sets the sink defaults to the stored size. -/
theorem initPage_malformed_atomic (env : Env) (d : Document) (p : CSSPage)
    (hpage : d.doc.CurrentPage = none) (hstyle : getPage d.c.Pages "" = some p)
    (hbad : Malformed env p) :
    (∃ e, initPage env d = Outcome.ret (d, some e)) ∧
    ∀ (c1 : CSS) (p1 : CSSPage), getPage c1.Pages "" = some p1 → WellFormed env p1 →
      ∃ d1, initPage env { d with c := c1 } = Outcome.ret (d1, none) ∧
        d1.doc.CurrentPage ≠ none ∧
        pagesCreated d1 = pagesCreated d + 1 ∧
        d1.doc.DefaultPageWidth = d1.currentPageDimensions.Width ∧
        d1.doc.DefaultPageHeight = d1.currentPageDimensions.Height := by
  refine ⟨initPage_malformed env d p hpage hstyle hbad, ?_⟩
  intro c1 p1 hs1 hwf
  obtain ⟨hw, hh, ht, hb, hl, hr⟩ := hwf
  obtain ⟨wd, hwd⟩ := parses_eq_true hw
  obtain ⟨ht1, hht⟩ := parses_eq_true hh
  obtain ⟨mt, hmt⟩ := marginSp_of_wellFormed ht
  obtain ⟨mb, hmb⟩ := marginSp_of_wellFormed hb
  obtain ⟨ml, hml⟩ := marginSp_of_wellFormed hl
  obtain ⟨mr, hmr⟩ := marginSp_of_wellFormed hr
  refine ⟨_, initPage_style env { d with c := c1 } p1 wd ht1 mt mb ml mr hpage hs1 hwd hht hmt hmb
    hml hmr, ?_, ?_, rfl, rfl⟩
  · simp [NewPage]
  · simp [NewPage, pagesCreated]

/-- Witness for C5: the sample style with the left margin `1 furlong`. -/
theorem initPage_malformed_atomic_witness :
    Malformed sampleEnv badPage ∧
    ∃ e, initPage sampleEnv (freshDoc (styleOf badPage)) =
      Outcome.ret (freshDoc (styleOf badPage), some e) :=
  ⟨Or.inr (Or.inr (Or.inr (Or.inr (Or.inl ⟨by decide, by decide⟩)))),
   (initPage_malformed_atomic sampleEnv (freshDoc (styleOf badPage)) badPage rfl rfl
      (Or.inr (Or.inr (Or.inr (Or.inr (Or.inl ⟨by decide, by decide⟩)))))).1⟩

/-- C6. `initPage` is idempotent: on a document that has a page it returns no
error and leaves the document as it is, whatever the style context holds and
whatever the length parser accepts; hence, after any call that returned no
error, a second call made after the style context was replaced returns no
error and leaves the stored `PageDimensions`, the sink and the page count as
the first call left them. -/
theorem initPage_idempotent (env env1 : Env) (d : Document) (c1 : CSS)
    (hpage : d.doc.CurrentPage ≠ none) :
    initPage env d = Outcome.ret (d, none) ∧
    initPage env1 { d with c := c1 } = Outcome.ret ({ d with c := c1 }, none) ∧
    ∀ (d0 da : Document), initPage env d0 = Outcome.ret (da, none) →
      ∃ db, initPage env1 { da with c := c1 } = Outcome.ret (db, none) ∧
        db.currentPageDimensions = da.currentPageDimensions ∧
        db.doc = da.doc ∧ pagesCreated db = pagesCreated da := by
  refine ⟨initPage_of_page env d hpage, initPage_of_page env1 { d with c := c1 } hpage, ?_⟩
  intro d0 da hfirst
  exact ⟨{ da with c := c1 },
    initPage_of_page env1 { da with c := c1 } (initPage_ok_page env d0 da hfirst), rfl, rfl, rfl⟩

/-- Witness for C6: the active sample document, its style context replaced by
one with a malformed default page, under a parser that rejects everything. -/
theorem initPage_idempotent_witness :
    activeDoc.doc.CurrentPage ≠ none ∧
    initPage { sampleEnv with Sp := fun _ => Except.error "rejected" }
        { activeDoc with c := styleOf badPage } =
      Outcome.ret ({ activeDoc with c := styleOf badPage }, none) :=
  ⟨by decide,
   (initPage_idempotent sampleEnv { sampleEnv with Sp := fun _ => Except.error "rejected" }
      activeDoc (styleOf badPage) (by decide)).2.1⟩

/-- C7. Fallback equivalence (P1): on two documents without a page, one with
no default-page style and one whose default-page style is A4 with all four
margins empty, with the paper-size lookup mapping A4 to `210mm` and `297mm`:
whenever one of the two resolutions returns without error so does the other,
and the stored `PageDimensions` and the sink default width and height are
equal; both do return without error when `bag.Sp` parses the two literals. -/
theorem fallback_equivalence (env : Env) (d1 d2 : Document)
    (hA4 : env.PapersizeWdHt "A4" = ("210mm", "297mm"))
    (h1 : d1.doc.CurrentPage = none) (h1s : getPage d1.c.Pages "" = none)
    (h2 : d2.doc.CurrentPage = none) (h2s : getPage d2.c.Pages "" = some a4Page) :
    (∀ r1, initPage env d1 = Outcome.ret (r1, none) →
      ∃ r2, initPage env d2 = Outcome.ret (r2, none) ∧
        r2.currentPageDimensions = r1.currentPageDimensions ∧
        r2.doc.DefaultPageWidth = r1.doc.DefaultPageWidth ∧
        r2.doc.DefaultPageHeight = r1.doc.DefaultPageHeight) ∧
    (∀ r2, initPage env d2 = Outcome.ret (r2, none) →
      ∃ r1, initPage env d1 = Outcome.ret (r1, none) ∧
        r2.currentPageDimensions = r1.currentPageDimensions ∧
        r2.doc.DefaultPageWidth = r1.doc.DefaultPageWidth ∧
        r2.doc.DefaultPageHeight = r1.doc.DefaultPageHeight) ∧
    (∀ w h, env.Sp "210mm" = Except.ok w → env.Sp "297mm" = Except.ok h →
      ∃ r1 r2, initPage env d1 = Outcome.ret (r1, none) ∧
        initPage env d2 = Outcome.ret (r2, none) ∧
        r2.currentPageDimensions = r1.currentPageDimensions ∧
        r2.doc.DefaultPageWidth = r1.doc.DefaultPageWidth ∧
        r2.doc.DefaultPageHeight = r1.doc.DefaultPageHeight) := by
  have hwS : (env.PapersizeWdHt a4Page.Papersize).1 = "210mm" := by
    show (env.PapersizeWdHt "A4").1 = "210mm"
    rw [hA4]
  have hhS : (env.PapersizeWdHt a4Page.Papersize).2 = "297mm" := by
    show (env.PapersizeWdHt "A4").2 = "297mm"
    rw [hA4]
  have hm : marginSp env "" = Except.ok env.onecm := by simp [marginSp]
  have both : ∀ w h, env.Sp "210mm" = Except.ok w → env.Sp "297mm" = Except.ok h →
      ∃ r1 r2, initPage env d1 = Outcome.ret (r1, none) ∧
        initPage env d2 = Outcome.ret (r2, none) ∧
        r2.currentPageDimensions = r1.currentPageDimensions ∧
        r2.doc.DefaultPageWidth = r1.doc.DefaultPageWidth ∧
        r2.doc.DefaultPageHeight = r1.doc.DefaultPageHeight := by
    intro w h hw hh
    refine ⟨_, _, initPage_fallback env d1 w h h1 h1s hw hh,
      initPage_style env d2 a4Page w h env.onecm env.onecm env.onecm env.onecm h2 h2s
        (by rw [hwS]; exact hw) (by rw [hhS]; exact hh) hm hm hm hm, ?_, ?_, ?_⟩ <;>
      simp [NewPage]
  refine ⟨?_, ?_, both⟩
  · intro r1 hr1
    cases hw : env.Sp "210mm" with
    | error e => simp [initPage, h1, h1s, MustSp, hw, Outcome.bind] at hr1
    | ok w =>
      cases hh : env.Sp "297mm" with
      | error e => simp [initPage, h1, h1s, MustSp, hw, hh, Outcome.bind] at hr1
      | ok h =>
        obtain ⟨s1, s2, e1, e2, e3⟩ := both w h hw hh
        rw [e1] at hr1
        injection hr1 with hr1
        injection hr1 with hr1 _
        subst hr1
        exact ⟨s2, e2, e3⟩
  · intro r2 hr2
    cases hw : env.Sp "210mm" with
    | error e =>
      simp [initPage, h2, h2s, hwS, hw] at hr2
    | ok w =>
      cases hh : env.Sp "297mm" with
      | error e => simp [initPage, h2, h2s, hwS, hhS, hw, hh] at hr2
      | ok h =>
        obtain ⟨s1, s2, e1, e2, e3⟩ := both w h hw hh
        rw [e2] at hr2
        injection hr2 with hr2
        injection hr2 with hr2 _
        subst hr2
        exact ⟨s1, e1, e3⟩

/-- Witness for C7: the sample environment resolves both documents. -/
theorem fallback_equivalence_witness :
    ∃ r1 r2, initPage sampleEnv (freshDoc noStyle) = Outcome.ret (r1, none) ∧
      initPage sampleEnv (freshDoc (styleOf a4Page)) = Outcome.ret (r2, none) ∧
      r2.currentPageDimensions = r1.currentPageDimensions ∧
      r2.doc.DefaultPageWidth = r1.doc.DefaultPageWidth ∧
      r2.doc.DefaultPageHeight = r1.doc.DefaultPageHeight :=
  (fallback_equivalence sampleEnv (freshDoc noStyle) (freshDoc (styleOf a4Page)) (by decide) rfl rfl
    rfl rfl).2.2 39011981 55174088 rfl rfl

/-- C8. Style-path resolution values: on a document without a page whose
default-page style has literals that all parse, `initPage` returns no error
and stores as width and height the parsed literals of the paper-size lookup,
and as each margin the parse of its own literal when that is not empty and
the parse of `1cm` when it is. -/
theorem initPage_style_values (env : Env) (d : Document) (p : CSSPage)
    (wd ht mt mb ml mr : ScaledPoint) (hinit : env.Initialised)
    (hpage : d.doc.CurrentPage = none) (hstyle : getPage d.c.Pages "" = some p)
    (hwd : env.Sp (env.PapersizeWdHt p.Papersize).1 = Except.ok wd)
    (hht : env.Sp (env.PapersizeWdHt p.Papersize).2 = Except.ok ht)
    (hmt : env.Sp (if p.MarginTop = "" then "1cm" else p.MarginTop) = Except.ok mt)
    (hmb : env.Sp (if p.MarginBottom = "" then "1cm" else p.MarginBottom) = Except.ok mb)
    (hml : env.Sp (if p.MarginLeft = "" then "1cm" else p.MarginLeft) = Except.ok ml)
    (hmr : env.Sp (if p.MarginRight = "" then "1cm" else p.MarginRight) = Except.ok mr) :
    ∃ d1, initPage env d = Outcome.ret (d1, none) ∧
      d1.currentPageDimensions =
        { Width := wd, Height := ht, MarginLeft := ml, MarginRight := mr, MarginTop := mt,
          MarginBottom := mb } :=
  ⟨_, initPage_style env d p wd ht mt mb ml mr hpage hstyle hwd hht
      (marginSp_of_literal hinit hmt) (marginSp_of_literal hinit hmb)
      (marginSp_of_literal hinit hml) (marginSp_of_literal hinit hmr), rfl⟩

/-- Witness for C8: A4 with top and left margins of 2cm, the others empty. -/
theorem initPage_style_values_witness :
    ∃ d1, initPage sampleEnv (freshDoc (styleOf goodPage)) = Outcome.ret (d1, none) ∧
      d1.currentPageDimensions =
        { Width := 39011981, Height := 55174088, MarginLeft := 3715426, MarginRight := 1857713,
          MarginTop := 3715426, MarginBottom := 1857713 } :=
  initPage_style_values sampleEnv (freshDoc (styleOf goodPage)) goodPage 39011981 55174088 3715426
    1857713 3715426 1857713 rfl rfl rfl rfl rfl rfl rfl rfl rfl

/-- C9. Fallback resolution values: on a document without a page and without
a default-page style, `initPage` returns no error and stores the width
`Sp("210mm")`, the height `Sp("297mm")` and four margins `Sp("1cm")`, these
being literals that `bag.Sp` parses. -/
theorem initPage_fallback_values (env : Env) (d : Document) (w h c : ScaledPoint)
    (hinit : env.Initialised) (hpage : d.doc.CurrentPage = none)
    (hstyle : getPage d.c.Pages "" = none)
    (hw : env.Sp "210mm" = Except.ok w) (hh : env.Sp "297mm" = Except.ok h)
    (hc : env.Sp "1cm" = Except.ok c) :
    ∃ d1, initPage env d = Outcome.ret (d1, none) ∧
      d1.currentPageDimensions =
        { Width := w, Height := h, MarginLeft := c, MarginRight := c, MarginTop := c,
          MarginBottom := c } := by
  have hone : env.onecm = c := by
    have h2 : MustSp env "1cm" = Outcome.ret env.onecm := hinit
    simp only [MustSp, hc] at h2
    injection h2 with h2
    exact h2.symm
  refine ⟨_, initPage_fallback env d w h hpage hstyle hw hh, ?_⟩
  simp [NewPage, hone]

/-- Witness for C9: the fresh sample document without a style. -/
theorem initPage_fallback_values_witness :
    ∃ d1, initPage sampleEnv (freshDoc noStyle) = Outcome.ret (d1, none) ∧
      d1.currentPageDimensions =
        { Width := 39011981, Height := 55174088, MarginLeft := 1857713, MarginRight := 1857713,
          MarginTop := 1857713, MarginBottom := 1857713 } :=
  initPage_fallback_values sampleEnv (freshDoc noStyle) 39011981 55174088 1857713 rfl rfl rfl rfl
    rfl rfl

/-! ## Flow placer: the loop of `OutputAt` -/

theorem declared_of_typed {te : Text} {k : SettingType} {m : Option ScaledPoint}
    (h : getSetting te.Settings k = m.map SettingValue.scaledPoint) : declared te k = m := by
  unfold declared
  cases m with
  | none => simp [h]
  | some v => simp [h]

theorem lengthOrUnset_of_typed {o : Option SettingValue} {m : Option ScaledPoint}
    (h : o = m.map SettingValue.scaledPoint) : lengthOrUnset o = true := by
  subst h
  cases m <;> rfl

/-- Reading a margin that is unset or a Length never panics. -/
theorem margin_read {te : Text} {k : SettingType}
    (h : lengthOrUnset (getSetting te.Settings k) = true) :
    (match getSetting te.Settings k with
      | some mb => asScaledPoint mb
      | none => Outcome.ret 0) = Outcome.ret ((declared te k).getD 0) := by
  unfold declared
  cases hg : getSetting te.Settings k with
  | none => rfl
  | some v =>
    cases v with
    | scaledPoint a => rfl
    | int n => simp [hg, lengthOrUnset] at h
    | other t => simp [hg, lengthOrUnset] at h

/-- The value of `additionalMargin` when the margins it reads are Lengths. -/
theorem additionalMargin_eq (tes : List Text) (i : Nat) (te : Text)
    (hmb : lengthOrUnset (getSetting te.Settings SettingType.SettingMarginBottom) = true)
    (hmt : ∀ next, tes[i + 1]? = some next →
      lengthOrUnset (getSetting next.Settings SettingType.SettingMarginTop) = true) :
    additionalMargin tes i te = Outcome.ret (collapsedGap te tes[i + 1]?) := by
  unfold additionalMargin
  rw [margin_read hmb, Outcome.bind_ret]
  unfold collapsedGap
  generalize (declared te SettingType.SettingMarginBottom).getD 0 = am
  cases hn : tes[i + 1]? with
  | none =>
    have hlen : ¬ i + 1 < tes.length := by
      intro hlt
      rw [List.getElem?_eq_getElem hlt] at hn
      cases hn
    simp [hlen]
  | some next =>
    have hlen : i + 1 < tes.length := by
      by_contra hlt
      rw [List.getElem?_eq_none (Nat.le_of_not_lt hlt)] at hn
      cases hn
    have ht := hmt next hn
    simp only [hlen, if_true]
    unfold declared
    cases hg : getSetting next.Settings SettingType.SettingMarginTop with
    | none => rfl
    | some v =>
      cases v with
      | scaledPoint b =>
        simp only [asScaledPoint, Outcome.bind_ret]
        by_cases hlt : b > am
        · rw [if_pos hlt, max_eq_right (le_of_lt hlt)]
        · rw [if_neg hlt, max_eq_left (not_lt.mp hlt)]
      | int n => simp [hg, lengthOrUnset] at ht
      | other t => simp [hg, lengthOrUnset] at ht

theorem shapes_eq {env : Env} {width : ScaledPoint} {te : Text}
    (h : shapes env width te = true) :
    indentOptions te = Outcome.ret (optsOf te) ∧
    env.FormatParagraph te width (optsOf te) = Except.ok (shaped env width te) := by
  unfold shapes at h
  unfold shaped optsOf
  cases ho : indentOptions te with
  | panic => simp [ho] at h
  | ret opts =>
    cases hf : env.FormatParagraph te width opts with
    | error e => simp [ho, hf] at h
    | ok vl => simp [hf]

/-- One pass of the loop body on a block that shapes, on an active page. -/
theorem placeStep_eq (env : Env) (tes : List Text) (width x : ScaledPoint) (i : Nat) (te : Text)
    (d : Document) (y : ScaledPoint) (page : Page)
    (hpage : d.doc.CurrentPage = some page) (hshape : shapes env width te = true)
    (hmb : lengthOrUnset (getSetting te.Settings SettingType.SettingMarginBottom) = true)
    (hmt : ∀ next, tes[i + 1]? = some next →
      lengthOrUnset (getSetting next.Settings SettingType.SettingMarginTop) = true) :
    placeStep env tes width x i te d y = Outcome.ret
      (withPlaced d page [⟨x, y, shaped env width te⟩] [shapeEvent width te],
       wrap64 (y - ((shaped env width te).Height + (shaped env width te).Depth) -
         collapsedGap te tes[i + 1]?), none) := by
  obtain ⟨ho, hf⟩ := shapes_eq hshape
  unfold placeStep
  rw [ho, Outcome.bind_ret]
  simp only [hf, hpage, additionalMargin_eq tes i te hmb hmt, Outcome.bind_ret]
  rw [subSP_step]
  rfl

theorem withPlaced_withPlaced (d : Document) (page : Page) (a b : List PlacedObject)
    (e f : List Event) :
    withPlaced (withPlaced d page a e) { page with Objects := page.Objects ++ a } b f =
      withPlaced d page (a ++ b) (e ++ f) := by
  simp [withPlaced, List.append_assoc]

theorem withPlaced_nil (d : Document) (page : Page) (hpage : d.doc.CurrentPage = some page) :
    withPlaced d page [] [] = d := by
  cases d with
  | mk t a k cr sb df dims doc c st te tr =>
    cases doc with
    | mk w h cp =>
      simp only at hpage
      subst hpage
      simp [withPlaced]

theorem marginsTyped_top {te : Text} (h : marginsTyped te = true) :
    lengthOrUnset (getSetting te.Settings SettingType.SettingMarginTop) = true := by
  unfold marginsTyped at h
  simp only [Bool.and_eq_true] at h
  exact h.1

theorem marginsTyped_bottom {te : Text} (h : marginsTyped te = true) :
    lengthOrUnset (getSetting te.Settings SettingType.SettingMarginBottom) = true := by
  unfold marginsTyped at h
  simp only [Bool.and_eq_true] at h
  exact h.2

/-- The cursor moves from one block to the next by the height, depth and gap
of the block, in wrapping arithmetic. -/
theorem cursorAt_step (env : Env) (width y0 : ScaledPoint) (tes : List Text) (i : Nat) (te : Text)
    (hi : tes[i]? = some te) :
    wrap64 (cursorAt env width y0 tes i -
        ((shaped env width te).Height + (shaped env width te).Depth) -
          collapsedGap te tes[i + 1]?) = cursorAt env width y0 tes (i + 1) := by
  cases i with
  | zero =>
    simp only [cursorAt, offset, advance, hi]
    congr 1
    ring
  | succ j =>
    simp only [cursorAt]
    rw [show wrap64 (y0 - offset env width tes (j + 1)) -
          ((shaped env width te).Height + (shaped env width te).Depth) -
            collapsedGap te tes[j + 1 + 1]? =
        wrap64 (y0 - offset env width tes (j + 1)) -
          ((shaped env width te).Height + (shaped env width te).Depth +
            collapsedGap te tes[j + 1 + 1]?) by ring, wrap64_sub_wrap]
    rw [show offset env width tes (j + 1 + 1) =
        offset env width tes (j + 1) + advance env width tes (j + 1) from rfl]
    simp only [advance, hi]
    congr 1
    ring

/-- The loop from index `i` on: every remaining block is placed at the cursor
of its index, and the loop leaves with the cursor of the end of the queue. -/
theorem placeLoop_from (env : Env) (tes : List Text) (width x y0 : ScaledPoint)
    (hall : ∀ te ∈ tes, shapes env width te = true ∧ marginsTyped te = true) :
    ∀ (todo : List Text) (i : Nat) (d : Document) (page : Page),
      tes.drop i = todo → d.doc.CurrentPage = some page →
      placeLoop env tes width x todo i d (cursorAt env width y0 tes i) = Outcome.ret
        (withPlaced d page ((List.range' i todo.length).map (placedAt env width x y0 tes))
          (todo.map (shapeEvent width)),
         cursorAt env width y0 tes (i + todo.length), none) := by
  intro todo
  induction todo with
  | nil =>
    intro i d page _ hpage
    simp [placeLoop, withPlaced_nil d page hpage]
  | cons te rest ih =>
    intro i d page hdrop hpage
    have hi : tes[i]? = some te := by
      have := congrArg List.head? hdrop
      simpa [List.head?_drop] using this
    have hrest : tes.drop (i + 1) = rest := by
      have := congrArg List.tail hdrop
      simpa [List.tail_drop] using this
    have hmem : te ∈ tes := List.getElem?_mem hi
    have hmt : ∀ next, tes[i + 1]? = some next →
        lengthOrUnset (getSetting next.Settings SettingType.SettingMarginTop) = true := by
      intro next hn
      exact marginsTyped_top (hall next (List.getElem?_mem hn)).2
    have hstep := placeStep_eq env tes width x i te d (cursorAt env width y0 tes i) page hpage
      (hall te hmem).1 (marginsTyped_bottom (hall te hmem).2) hmt
    have hobj : (⟨x, cursorAt env width y0 tes i, shaped env width te⟩ : PlacedObject) =
        placedAt env width x y0 tes i := by
      simp [placedAt, hi]
    unfold placeLoop
    rw [hstep, Outcome.bind_ret]
    simp only []
    rw [cursorAt_step env width y0 tes i te hi]
    have hpage1 : (withPlaced d page [⟨x, cursorAt env width y0 tes i, shaped env width te⟩]
        [shapeEvent width te]).doc.CurrentPage =
        some { page with Objects := page.Objects ++
          [⟨x, cursorAt env width y0 tes i, shaped env width te⟩] } := rfl
    rw [ih (i + 1) _ _ hrest hpage1, withPlaced_withPlaced, hobj]
    simp [List.range'_succ, Nat.add_assoc, Nat.add_comm 1]

theorem cursorAfter_eq (env : Env) (tes : List Text) (width x : ScaledPoint) (i : Nat) (te : Text)
    (d : Document) (y : ScaledPoint) (page : Page)
    (hpage : d.doc.CurrentPage = some page) (hshape : shapes env width te = true)
    (hmb : lengthOrUnset (getSetting te.Settings SettingType.SettingMarginBottom) = true)
    (hmt : ∀ next, tes[i + 1]? = some next →
      lengthOrUnset (getSetting next.Settings SettingType.SettingMarginTop) = true) :
    cursorAfter env tes width x i te d y =
      some (wrap64 (y - ((shaped env width te).Height + (shaped env width te).Depth) -
        collapsedGap te tes[i + 1]?)) := by
  unfold cursorAfter
  rw [placeStep_eq env tes width x i te d y page hpage hshape hmb hmt]

theorem getElem?_succ_none {tes : List Text} {i : Nat} (h : i + 1 = tes.length) :
    tes[i + 1]? = none :=
  List.getElem?_eq_none (by omega)

/-- C1 as claimed fails: the block `pullUp` has the bottom margin -5pt and its
successor declares no top margin.  The gap the loop body computes is -5pt and
it takes height, depth and -5pt from the cursor; the formula of the claim,
with the unset side counted as 0, gives the gap `max (-5pt) 0 = 0`. -/
theorem margin_gap_unset_top_counterexample :
    additionalMargin [pullUp, plainBlock] 0 pullUp = Outcome.ret (-5 * pt) ∧
    cursorAfter sampleEnv [pullUp, plainBlock] (400 * pt) 0 0 pullUp activeDoc (800 * pt) =
      some (800 * pt - (10 * pt + 2 * pt) - (-5 * pt)) ∧
    specGap pullUp (some plainBlock) = 0 ∧
    cursorAfter sampleEnv [pullUp, plainBlock] (400 * pt) 0 0 pullUp activeDoc (800 * pt) ≠
      some (800 * pt - (10 * pt + 2 * pt) - specGap pullUp (some plainBlock)) := by
  decide

/-- C1 (amended). Margin gap formula: for every pending queue, every index `i`
whose block shapes, and all Length values of the margins, the gap the loop
body computes and takes from the cursor, beyond height and depth, is the
bottom margin of block `i` (0 if unset) when `i` is the last block; otherwise
the larger of that and the top margin of block `i+1` when block `i+1` declares
one, and the bottom margin of block `i` (0 if unset) alone when block `i+1`
declares none.  The cursor is taken in the arithmetic of the Length type. -/
theorem margin_gap_formula (env : Env) (tes : List Text) (width x y : ScaledPoint) (i : Nat)
    (te : Text) (d : Document) (page : Page) (mb : Option ScaledPoint)
    (hi : tes[i]? = some te) (hpage : d.doc.CurrentPage = some page)
    (hshape : shapes env width te = true)
    (hmb : getSetting te.Settings SettingType.SettingMarginBottom =
      mb.map SettingValue.scaledPoint) :
    (i + 1 = tes.length →
      additionalMargin tes i te = Outcome.ret (mb.getD 0) ∧
      cursorAfter env tes width x i te d y =
        some (wrap64
          (y - ((shaped env width te).Height + (shaped env width te).Depth) - mb.getD 0))) ∧
    (∀ (next : Text) (mt : Option ScaledPoint), tes[i + 1]? = some next →
      getSetting next.Settings SettingType.SettingMarginTop = mt.map SettingValue.scaledPoint →
      additionalMargin tes i te =
        Outcome.ret
          (match mt with
            | some t => max (mb.getD 0) t
            | none => mb.getD 0) ∧
      cursorAfter env tes width x i te d y =
        some (wrap64 (y - ((shaped env width te).Height + (shaped env width te).Depth) -
          (match mt with
            | some t => max (mb.getD 0) t
            | none => mb.getD 0)))) ∧
    (∀ g : ScaledPoint, additionalMargin tes i te = Outcome.ret g →
      InRange (y - ((shaped env width te).Height + (shaped env width te).Depth) - g) →
      cursorAfter env tes width x i te d y =
        some (y - ((shaped env width te).Height + (shaped env width te).Depth) - g)) := by
  have _ := hi
  have hb := lengthOrUnset_of_typed hmb
  have hdb := declared_of_typed hmb
  refine ⟨?_, ?_, ?_⟩
  · intro hlast
    have hnone := getElem?_succ_none hlast
    have hmt : ∀ next, tes[i + 1]? = some next →
        lengthOrUnset (getSetting next.Settings SettingType.SettingMarginTop) = true := by
      intro next hn
      rw [hnone] at hn
      cases hn
    have hgap : collapsedGap te tes[i + 1]? = mb.getD 0 := by
      simp [hnone, collapsedGap, hdb]
    rw [cursorAfter_eq env tes width x i te d y page hpage hshape hb hmt,
      additionalMargin_eq tes i te hb hmt, hgap]
    exact ⟨rfl, rfl⟩
  · intro next mt hn hmt
    have hmt1 : ∀ n1, tes[i + 1]? = some n1 →
        lengthOrUnset (getSetting n1.Settings SettingType.SettingMarginTop) = true := by
      intro n1 hn1
      rw [hn] at hn1
      cases hn1
      exact lengthOrUnset_of_typed hmt
    have hdt := declared_of_typed hmt
    rw [cursorAfter_eq env tes width x i te d y page hpage hshape hb hmt1,
      additionalMargin_eq tes i te hb hmt1]
    cases mt with
    | none => simp [hn, collapsedGap, hdb, hdt]
    | some t => simp [hn, collapsedGap, hdb, hdt]
  · intro g hg hrange
    obtain ⟨ho, hf⟩ := shapes_eq hshape
    unfold cursorAfter placeStep
    rw [ho, Outcome.bind_ret]
    simp only [hf, hpage, hg, Outcome.bind_ret]
    rw [subSP_step, wrap64_of_inRange hrange]

/-- Witness for C1: blocks A (bottom margin 5pt) and B (top margin 8pt). -/
theorem margin_gap_formula_witness :
    additionalMargin [blockA, blockB] 0 blockA = Outcome.ret (max (5 * pt) (8 * pt)) ∧
    cursorAfter sampleEnv [blockA, blockB] (400 * pt) 0 0 blockA activeDoc (800 * pt) =
      some (wrap64 (800 * pt -
        ((shaped sampleEnv (400 * pt) blockA).Height + (shaped sampleEnv (400 * pt) blockA).Depth) -
        max (5 * pt) (8 * pt))) :=
  (margin_gap_formula sampleEnv [blockA, blockB] (400 * pt) 0 (800 * pt) 0 blockA activeDoc
    { Width := 39011981, Height := 55174088, Objects := [] } (some (5 * pt)) rfl rfl rfl rfl).2.1
    blockB (some (8 * pt)) rfl rfl

/-- C2. Margin collapse is max, not sum: for consecutive blocks `i`, `i+1` with
the bottom margin `a` of block `i` and the top margin `b` of block `i+1` both
declared, the gap the loop applies after block `i` is the larger of the two,
and it is strictly smaller than their sum whenever both are positive. -/
theorem margin_collapse_max (env : Env) (tes : List Text) (width x y : ScaledPoint) (i : Nat)
    (te next : Text) (d : Document) (page : Page) (a b : ScaledPoint)
    (hi : tes[i]? = some te) (hnext : tes[i + 1]? = some next)
    (hpage : d.doc.CurrentPage = some page) (hshape : shapes env width te = true)
    (hmb : getSetting te.Settings SettingType.SettingMarginBottom =
      some (SettingValue.scaledPoint a))
    (hmt : getSetting next.Settings SettingType.SettingMarginTop =
      some (SettingValue.scaledPoint b)) :
    additionalMargin tes i te = Outcome.ret (max a b) ∧
    cursorAfter env tes width x i te d y =
      some (wrap64
        (y - ((shaped env width te).Height + (shaped env width te).Depth) - max a b)) ∧
    (InRange (y - ((shaped env width te).Height + (shaped env width te).Depth) - max a b) →
      cursorAfter env tes width x i te d y =
        some (y - ((shaped env width te).Height + (shaped env width te).Depth) - max a b)) ∧
    (0 < a → 0 < b → max a b < a + b) := by
  have _ := hi
  have hb : lengthOrUnset (getSetting te.Settings SettingType.SettingMarginBottom) = true := by
    rw [hmb]; rfl
  have ht : ∀ n1, tes[i + 1]? = some n1 →
      lengthOrUnset (getSetting n1.Settings SettingType.SettingMarginTop) = true := by
    intro n1 hn1
    rw [hnext] at hn1
    cases hn1
    rw [hmt]; rfl
  have hgap : collapsedGap te tes[i + 1]? = max a b := by
    simp [hnext, collapsedGap, declared, hmb, hmt]
  refine ⟨?_, ?_, ?_, ?_⟩
  · rw [additionalMargin_eq tes i te hb ht, hgap]
  · rw [cursorAfter_eq env tes width x i te d y page hpage hshape hb ht, hgap]
  · intro hrange
    rw [cursorAfter_eq env tes width x i te d y page hpage hshape hb ht, hgap,
      wrap64_of_inRange hrange]
  · intro ha hb0
    exact max_lt (lt_add_of_pos_right a hb0) (lt_add_of_pos_left b ha)

/-- Witness for C2 (P3): bottom margin 5pt and top margin 8pt give the gap 8pt. -/
theorem margin_collapse_max_witness :
    additionalMargin [blockA, blockB] 0 blockA = Outcome.ret (8 * pt) :=
  (margin_collapse_max sampleEnv [blockA, blockB] (400 * pt) 0 (800 * pt) 0 blockA blockB activeDoc
    { Width := 39011981, Height := 55174088, Objects := [] } (5 * pt) (8 * pt) rfl rfl rfl rfl rfl
    rfl).1.trans (congrArg Outcome.ret (by decide))

/-- Reading the content leaves the page sink and the geometry alone. -/
theorem readContent_frame (env : Env) (d : Document) (html : String) (width : ScaledPoint) :
    (readContent env d html width).1.doc = d.doc ∧
    (readContent env d html width).1.currentPageDimensions = d.currentPageDimensions ∧
    pagesCreated (readContent env d html width).1 = pagesCreated d := by
  unfold readContent
  cases (env.ReadHTMLChunk d.c html).2 with
  | some e => simp [pagesCreated]
  | none =>
    dsimp only
    cases (env.ApplyCSS (env.ReadHTMLChunk d.c html).1).2 with
    | error e => simp [pagesCreated]
    | ok sel => simp [pagesCreated]

/-- The whole loop on a queue of blocks that all shape. -/
theorem placeLoop_all (env : Env) (tes : List Text) (width x y : ScaledPoint) (d : Document)
    (page : Page) (hpage : d.doc.CurrentPage = some page)
    (hall : ∀ te ∈ tes, shapes env width te = true ∧ marginsTyped te = true) :
    placeLoop env tes width x tes 0 d y = Outcome.ret
      (withPlaced d page ((List.range tes.length).map (placedAt env width x y tes))
        (tes.map (shapeEvent width)),
       cursorAt env width y tes tes.length, none) := by
  have h := placeLoop_from env tes width x y hall tes 0 d page (by simp) hpage
  simp only [Nat.zero_add] at h
  rw [List.range_eq_range']
  exact h

/-- The cursor of a later block is the exact difference, wrapped; for a
Length value `y` this holds for the first block too. -/
theorem cursorAt_eq_wrap (env : Env) (width y : ScaledPoint) (tes : List Text) (hy : InRange y)
    (k : Nat) : cursorAt env width y tes k = wrap64 (y - offset env width tes k) := by
  cases k with
  | zero =>
    simp only [cursorAt, offset, sub_zero]
    exact (wrap64_of_inRange hy).symm
  | succ j => rfl

/-- Where the exact difference is a Length value, it is the cursor. -/
theorem cursorAt_exact (env : Env) (width y : ScaledPoint) (tes : List Text) (k : Nat)
    (h : InRange (y - offset env width tes k)) :
    cursorAt env width y tes k = y - offset env width tes k := by
  cases k with
  | zero => simp [cursorAt, offset]
  | succ j =>
    simp only [cursorAt]
    exact wrap64_of_inRange h

/-- C3 as claimed fails: the fragment `two` placed with the cursor at the least
Length value plus 100.  Block A is placed at that cursor; block B, 12pt of
height and depth and a gap of 8pt further, is placed at 9223372036853465188,
the difference wrapped around, and not at the cursor less 20pt, which is no
Length value. -/
theorem outputAt_placements_overflow_counterexample :
    (OutputAt sampleEnv (freshDoc noStyle) "two" (400 * pt) 0 (minSP + 100)).bind
        (fun r => Outcome.ret ((placedObjects r.1).map PlacedObject.Y, r.2)) =
      Outcome.ret ([minSP + 100, 9223372036853465188], none) ∧
    offset sampleEnv (400 * pt) [blockA, blockB] 1 = 10 * pt + 2 * pt + 8 * pt ∧
    (9223372036853465188 : Int) ≠ minSP + 100 - (10 * pt + 2 * pt + 8 * pt) ∧
    minSP + 100 - (10 * pt + 2 * pt + 8 * pt) < minSP := by
  decide

/-- C3 (amended). Placement coordinates: when `initPage` returns no error, the
content is read without error and every block of the pending queue shapes,
`OutputAt` called with `(x, y)` returns no error and has added to the current
page exactly one placement per pending block, in queue order; block `k` is
placed at the x-coordinate `x` and at the y-coordinate `y` less the sum over
all `j < k` of height, depth and gap of block `j` whenever that difference is
a value of the fixed-width Length type, and at that difference wrapped modulo
`2^64` otherwise; the first block is placed at `(x, y)`. -/
theorem outputAt_placements (env : Env) (d d1 q : Document) (html : String)
    (width x y : ScaledPoint)
    (hinit : initPage env d = Outcome.ret (d1, none))
    (hread : readContent env d1 html width = (q, none))
    (hall : ∀ te ∈ q.te, shapes env width te = true ∧ marginsTyped te = true) :
    ∃ page, q.doc.CurrentPage = some page ∧
      OutputAt env d html width x y = Outcome.ret
        ({ withPlaced q page ((List.range q.te.length).map (placedAt env width x y q.te))
            (q.te.map (shapeEvent width)) with te := [] }, none) ∧
      ((List.range q.te.length).map (placedAt env width x y q.te)).length = q.te.length ∧
      (∀ (k : Nat) (te : Text), q.te[k]? = some te →
        InRange (y - offset env width q.te k) →
        ((List.range q.te.length).map (placedAt env width x y q.te))[k]? =
          some ⟨x, y - offset env width q.te k, shaped env width te⟩) ∧
      (InRange y → ∀ (k : Nat) (te : Text), q.te[k]? = some te →
        ((List.range q.te.length).map (placedAt env width x y q.te))[k]? =
          some ⟨x, wrap64 (y - offset env width q.te k), shaped env width te⟩) ∧
      (∀ te : Text, q.te[0]? = some te →
        ((List.range q.te.length).map (placedAt env width x y q.te))[0]? =
          some ⟨x, y, shaped env width te⟩) := by
  have hdoc : q.doc = d1.doc := by
    have := (readContent_frame env d1 html width).1
    rw [hread] at this
    exact this
  have hsome : q.doc.CurrentPage ≠ none := by
    rw [hdoc]
    exact initPage_ok_page env d d1 hinit
  obtain ⟨page, hpage⟩ := Option.ne_none_iff_exists'.mp hsome
  have hk : ∀ (k : Nat) (te : Text), q.te[k]? = some te →
      ((List.range q.te.length).map (placedAt env width x y q.te))[k]? =
        some ⟨x, cursorAt env width y q.te k, shaped env width te⟩ := by
    intro k te hk
    have hlt : k < q.te.length := by
      by_contra hge
      rw [List.getElem?_eq_none (Nat.le_of_not_lt hge)] at hk
      cases hk
    simp [List.getElem?_range hlt, placedAt, hk]
  refine ⟨page, hpage, ?_, by simp, ?_, ?_, ?_⟩
  · unfold OutputAt
    rw [hinit, Outcome.bind_ret]
    simp only [hread]
    rw [placeLoop_all env q.te width x y q page hpage hall, Outcome.bind_ret]
  · intro k te hkte hrange
    rw [hk k te hkte, cursorAt_exact env width y q.te k hrange]
  · intro hy k te hkte
    rw [hk k te hkte, cursorAt_eq_wrap env width y q.te hy k]
  · intro te h0
    exact hk 0 te h0

/-- Witness for C3: the fragment `two` of the sample style source at
(0, 800pt); the second placement is 800pt less the offset of block B. -/
theorem outputAt_placements_witness :
    ∃ (page : Page) (d2 : Document),
      OutputAt sampleEnv (freshDoc noStyle) "two" (400 * pt) 0 (800 * pt) =
        Outcome.ret (d2, none) ∧
      d2.doc.CurrentPage = some { page with Objects :=
        (page.Objects ++
          (List.range 2).map (placedAt sampleEnv (400 * pt) 0 (800 * pt) [blockA, blockB])) } ∧
      ((List.range 2).map (placedAt sampleEnv (400 * pt) 0 (800 * pt) [blockA, blockB]))[1]? =
        some ⟨0, 800 * pt - offset sampleEnv (400 * pt) [blockA, blockB] 1,
          shaped sampleEnv (400 * pt) blockB⟩ := by
  obtain ⟨page, _, h, _, h4, _⟩ := outputAt_placements sampleEnv (freshDoc noStyle) resolvedDoc
    (readContent sampleEnv resolvedDoc "two" (400 * pt)).1 "two" (400 * pt) 0 (800 * pt) rfl rfl
    (by decide)
  exact ⟨page, _, h, rfl, h4 1 blockB rfl ⟨by decide, by decide⟩⟩

/-- The sample run of property P3, evaluated: block A is placed at 800pt and
block B at 780pt, 12pt of height and depth and a gap of 8pt lower. -/
theorem outputAt_sample_run :
    (OutputAt sampleEnv (freshDoc noStyle) "two" (400 * pt) 0 (800 * pt)).bind
        (fun r => Outcome.ret (r.1.doc.CurrentPage.map Page.Objects, r.1.te, r.2)) =
      Outcome.ret
        (some [⟨0, 800 * pt, ⟨400 * pt, 10 * pt, 2 * pt⟩⟩, ⟨0, 780 * pt, ⟨400 * pt, 10 * pt, 2 * pt⟩⟩],
         [], none) := by
  decide

/-- C4. Trailing margin applied: the gap of the last block of a queue is its
own bottom margin (0 if unset), whatever its top margin holds; and a single
block placed with the cursor at `y` leaves the cursor at `y` less its height,
its depth and its bottom margin, in the arithmetic of the Length type. -/
theorem trailing_margin (env : Env) (tes : List Text) (width x y : ScaledPoint) (i : Nat)
    (te : Text) (d : Document) (page : Page) (mb : Option ScaledPoint)
    (hi : tes[i]? = some te) (hlast : i + 1 = tes.length)
    (hpage : d.doc.CurrentPage = some page) (hshape : shapes env width te = true)
    (hmb : getSetting te.Settings SettingType.SettingMarginBottom =
      mb.map SettingValue.scaledPoint) :
    additionalMargin tes i te = Outcome.ret (mb.getD 0) ∧
    cursorAfter env tes width x i te d y =
      some (wrap64
        (y - ((shaped env width te).Height + (shaped env width te).Depth) - mb.getD 0)) ∧
    placeLoop env [te] width x [te] 0 d y = Outcome.ret
      (withPlaced d page [⟨x, y, shaped env width te⟩] [shapeEvent width te],
       wrap64 (y - ((shaped env width te).Height + (shaped env width te).Depth) - mb.getD 0),
       none) ∧
    (InRange (y - ((shaped env width te).Height + (shaped env width te).Depth) - mb.getD 0) →
      placeLoop env [te] width x [te] 0 d y = Outcome.ret
        (withPlaced d page [⟨x, y, shaped env width te⟩] [shapeEvent width te],
         y - ((shaped env width te).Height + (shaped env width te).Depth) - mb.getD 0,
         none)) := by
  have _ := hi
  have hb := lengthOrUnset_of_typed hmb
  have hdb := declared_of_typed hmb
  have hnone := getElem?_succ_none hlast
  have hgap : collapsedGap te tes[i + 1]? = mb.getD 0 := by
    simp [hnone, collapsedGap, hdb]
  have hnomt : ∀ (l : List Text) (j : Nat), l[j + 1]? = none → ∀ next, l[j + 1]? = some next →
      lengthOrUnset (getSetting next.Settings SettingType.SettingMarginTop) = true := by
    intro l j hn next hnx
    rw [hn] at hnx
    cases hnx
  have hloop : placeLoop env [te] width x [te] 0 d y = Outcome.ret
      (withPlaced d page [⟨x, y, shaped env width te⟩] [shapeEvent width te],
       wrap64 (y - ((shaped env width te).Height + (shaped env width te).Depth) - mb.getD 0),
       none) := by
    have h1 : ([te] : List Text)[0 + 1]? = none := rfl
    unfold placeLoop
    rw [placeStep_eq env [te] width x 0 te d y page hpage hshape hb (hnomt [te] 0 h1),
      Outcome.bind_ret]
    simp only [h1]
    unfold placeLoop
    simp [collapsedGap, hdb]
  refine ⟨?_, ?_, hloop, ?_⟩
  · rw [additionalMargin_eq tes i te hb (hnomt tes i hnone), hgap]
  · rw [cursorAfter_eq env tes width x i te d y page hpage hshape hb (hnomt tes i hnone), hgap]
  · intro hrange
    rw [hloop, wrap64_of_inRange hrange]

/-- Witness for C4 (the scenario of the spec): one block without settings,
10pt high and 2pt deep, placed with the cursor at 800pt, leaves it at 788pt. -/
theorem trailing_margin_witness :
    ∃ d1, placeLoop sampleEnv [plainBlock] (400 * pt) 0 [plainBlock] 0 activeDoc (800 * pt) =
      Outcome.ret (d1, 788 * pt, none) :=
  ⟨_, (trailing_margin sampleEnv [plainBlock] (400 * pt) 0 (800 * pt) 0 plainBlock activeDoc
    { Width := 39011981, Height := 55174088, Objects := [] } none rfl rfl rfl rfl rfl).2.2.2
      ⟨by decide, by decide⟩⟩

/-! ## The geometry over the lifetime of a document -/

theorem geometryKept_refl (d : Document) (h : d.doc.CurrentPage ≠ none) : GeometryKept d d :=
  ⟨h, rfl, rfl, rfl, rfl⟩

theorem geometryKept_trans {a b c : Document} (h1 : GeometryKept a b) (h2 : GeometryKept b c) :
    GeometryKept a c :=
  ⟨h2.1, h2.2.1.trans h1.2.1, h2.2.2.1.trans h1.2.2.1, h2.2.2.2.1.trans h1.2.2.2.1,
    h2.2.2.2.2.trans h1.2.2.2.2⟩

theorem initPage_pages (env : Env) (d d1 : Document)
    (h : initPage env d = Outcome.ret (d1, none)) : pagesCreated d1 ≤ pagesCreated d + 1 := by
  rcases initPage_ok_cases env d d1 h with ⟨_, h1⟩ | ⟨w, ht, dims, _, h1⟩
  · subst h1
    exact Nat.le_succ _
  · subst h1
    simp [NewPage, pagesCreated]

theorem placeStep_frame (env : Env) (tes : List Text) (width x : ScaledPoint) (i : Nat)
    (te : Text) (d : Document) (y : ScaledPoint) (r : Document × ScaledPoint × Option Err)
    (hpage : d.doc.CurrentPage ≠ none) (h : placeStep env tes width x i te d y = Outcome.ret r) :
    GeometryKept d r.1 := by
  unfold placeStep at h
  cases ho : indentOptions te with
  | panic => simp [ho] at h
  | ret opts =>
    simp only [ho, Outcome.bind_ret] at h
    cases hf : env.FormatParagraph te width opts with
    | error e =>
      simp only [hf] at h
      injection h with h
      subst h
      exact ⟨hpage, rfl, rfl, rfl, by simp [pagesCreated]⟩
    | ok vl =>
      simp only [hf] at h
      cases hp : d.doc.CurrentPage with
      | none => exact absurd hp hpage
      | some page =>
        simp only [hp] at h
        cases ha : additionalMargin tes i te with
        | panic => simp [ha] at h
        | ret am =>
          simp only [ha, Outcome.bind_ret] at h
          injection h with h
          subst h
          exact ⟨by simp, rfl, rfl, rfl, by simp [pagesCreated]⟩

theorem placeLoop_frame (env : Env) (tes : List Text) (width x : ScaledPoint) :
    ∀ (todo : List Text) (i : Nat) (d : Document) (y : ScaledPoint)
      (r : Document × ScaledPoint × Option Err), d.doc.CurrentPage ≠ none →
      placeLoop env tes width x todo i d y = Outcome.ret r → GeometryKept d r.1 := by
  intro todo
  induction todo with
  | nil =>
    intro i d y r hpage h
    unfold placeLoop at h
    injection h with h
    subst h
    exact geometryKept_refl d hpage
  | cons te rest ih =>
    intro i d y r hpage h
    unfold placeLoop at h
    cases hs : placeStep env tes width x i te d y with
    | panic => simp [hs] at h
    | ret r1 =>
      have hk := placeStep_frame env tes width x i te d y r1 hpage hs
      simp only [hs, Outcome.bind_ret] at h
      cases he : r1.2.2 with
      | some e =>
        simp only [he] at h
        injection h with h
        subst h
        exact hk
      | none =>
        simp only [he] at h
        exact geometryKept_trans hk (ih (i + 1) r1.1 r1.2.1 r hk.1 h)

theorem readContent_kept (env : Env) (d : Document) (html : String) (width : ScaledPoint)
    (hpage : d.doc.CurrentPage ≠ none) : GeometryKept d (readContent env d html width).1 := by
  obtain ⟨h1, h2, h3⟩ := readContent_frame env d html width
  exact ⟨by rw [h1]; exact hpage, h2, by rw [h1], by rw [h1], h3⟩

theorem OutputAt_frame (env : Env) (d : Document) (html : String) (width x y : ScaledPoint)
    (r : Document × Option Err) (hpage : d.doc.CurrentPage ≠ none)
    (h : OutputAt env d html width x y = Outcome.ret r) : GeometryKept d r.1 := by
  unfold OutputAt at h
  rw [initPage_of_page env d hpage, Outcome.bind_ret] at h
  have hq := readContent_kept env d html width hpage
  simp only [] at h
  cases he : (readContent env d html width).2 with
  | some e =>
    simp only [he] at h
    injection h with h
    subst h
    exact hq
  | none =>
    simp only [he] at h
    cases hl : placeLoop env (readContent env d html width).1.te width x
        (readContent env d html width).1.te 0 (readContent env d html width).1 y with
    | panic => simp [hl] at h
    | ret l =>
      have hk := placeLoop_frame env _ width x _ 0 _ y l hq.1 hl
      simp only [hl, Outcome.bind_ret] at h
      cases hle : l.2.2 with
      | some e =>
        simp only [hle] at h
        injection h with h
        subst h
        exact geometryKept_trans hq hk
      | none =>
        simp only [hle] at h
        injection h with h
        subst h
        exact geometryKept_trans hq ⟨hk.1, hk.2.1, hk.2.2.1, hk.2.2.2.1, hk.2.2.2.2⟩

theorem step_frame (env : Env) (d d1 : Document) (op : Op) (hpage : d.doc.CurrentPage ≠ none)
    (h : step env d op = Outcome.ret d1) : GeometryKept d d1 := by
  cases op with
  | ensurePage =>
    simp only [step, initPage_of_page env d hpage, Outcome.bind_ret] at h
    injection h with h
    subst h
    exact geometryKept_refl d hpage
  | pageSize =>
    simp only [step, PageSize, initPage_of_page env d hpage, Outcome.bind_ret] at h
    injection h with h
    subst h
    exact geometryKept_refl d hpage
  | parseCSSString css =>
    simp only [step, ParseCSSString] at h
    injection h with h
    subst h
    exact ⟨hpage, rfl, rfl, rfl, by simp [pagesCreated]⟩
  | outputAt html width x y =>
    simp only [step] at h
    cases ho : OutputAt env d html width x y with
    | panic => simp [ho] at h
    | ret r =>
      simp only [ho, Outcome.bind_ret] at h
      injection h with h
      subst h
      exact OutputAt_frame env d html width x y r hpage ho

theorem run_frame (env : Env) :
    ∀ (ops : List Op) (d d2 : Document), d.doc.CurrentPage ≠ none →
      run env d ops = Outcome.ret d2 → GeometryKept d d2 := by
  intro ops
  induction ops with
  | nil =>
    intro d d2 hpage h
    unfold run at h
    injection h with h
    subst h
    exact geometryKept_refl d hpage
  | cons op ops ih =>
    intro d d2 hpage h
    unfold run at h
    cases hs : step env d op with
    | panic => simp [hs] at h
    | ret d1 =>
      simp only [hs, Outcome.bind_ret] at h
      have hk := step_frame env d d1 op hpage hs
      exact geometryKept_trans hk (ih d1 d2 hk.1 h)

/-- C10. Geometry is never re-resolved: after a call of `initPage` that
returned no error, every sequence of calls (`initPage`, `PageSize`,
`ParseCSSString`, `OutputAt`, returning an error or not) leaves the document
with an active page, with the `PageDimensions` and sink defaults the first
resolution stored and with no further page created; the first resolution
itself created at most one page. -/
theorem geometry_never_reresolved (env : Env) (d0 d1 d2 : Document) (ops : List Op)
    (hfirst : initPage env d0 = Outcome.ret (d1, none))
    (hrun : run env d1 ops = Outcome.ret d2) :
    d2.doc.CurrentPage ≠ none ∧
    d2.currentPageDimensions = d1.currentPageDimensions ∧
    d2.doc.DefaultPageWidth = d1.doc.DefaultPageWidth ∧
    d2.doc.DefaultPageHeight = d1.doc.DefaultPageHeight ∧
    pagesCreated d2 = pagesCreated d1 ∧
    pagesCreated d2 ≤ pagesCreated d0 + 1 ∧
    initPage env d2 = Outcome.ret (d2, none) := by
  have hk := run_frame env ops d1 d2 (initPage_ok_page env d0 d1 hfirst) hrun
  obtain ⟨h1, h2, h3, h4, h5⟩ := hk
  refine ⟨h1, h2, h3, h4, h5, ?_, initPage_of_page env d2 h1⟩
  rw [h5]
  exact initPage_pages env d0 d1 hfirst

/-- Witness for C10: the sample session on the freshly resolved document ends
with the A4 geometry of the first resolution and one page created. -/
theorem geometry_never_reresolved_witness :
    ∃ d2, run sampleEnv resolvedDoc sampleOps = Outcome.ret d2 ∧
      d2.currentPageDimensions = resolvedDoc.currentPageDimensions ∧
      pagesCreated d2 ≤ 1 := by
  obtain ⟨d2, h⟩ : ∃ d2, run sampleEnv resolvedDoc sampleOps = Outcome.ret d2 := ⟨_, rfl⟩
  have hk := geometry_never_reresolved sampleEnv (freshDoc noStyle) resolvedDoc d2 sampleOps rfl h
  exact ⟨d2, h, hk.2.1, hk.2.2.2.2.2.1⟩

/-! ## Flow placer: failures and the pending queue -/

theorem shapeError_eq {env : Env} {width : ScaledPoint} {te : Text} {e : Err}
    (h : shapeError env width te = some e) :
    indentOptions te = Outcome.ret (optsOf te) ∧
    env.FormatParagraph te width (optsOf te) = Except.error e := by
  unfold shapeError at h
  unfold optsOf
  cases ho : indentOptions te with
  | panic => simp [ho] at h
  | ret opts =>
    cases hf : env.FormatParagraph te width opts with
    | ok vl => simp [ho, hf] at h
    | error e1 =>
      simp only [ho, hf, Option.some.injEq] at h
      subst h
      exact ⟨rfl, rfl⟩

/-- One pass of the loop body on a block the typesetter fails on. -/
theorem placeStep_fail (env : Env) (tes : List Text) (width x : ScaledPoint) (i : Nat) (te : Text)
    (d : Document) (y : ScaledPoint) (e : Err) (h : shapeError env width te = some e) :
    placeStep env tes width x i te d y =
      Outcome.ret ({ d with trace := d.trace ++ [shapeEvent width te] }, y, some e) := by
  obtain ⟨ho, hf⟩ := shapeError_eq h
  unfold placeStep
  rw [ho, Outcome.bind_ret]
  simp only [hf]
  rfl

theorem withPlaced_no_objects (d : Document) (page : Page) (evs : List Event)
    (hpage : d.doc.CurrentPage = some page) :
    withPlaced d page [] evs = { d with trace := d.trace ++ evs } := by
  cases d with
  | mk t a k cr sb df dims doc c st te tr =>
    cases doc with
    | mk w h cp =>
      simp only at hpage
      subst hpage
      simp [withPlaced]

/-- The loop from index `i` on, when block `k` is the first one the typesetter
fails on: blocks `i` to `k-1` are placed, the typesetter is called on blocks
`i` to `k`, and the loop leaves with the error of block `k`. -/
theorem placeLoop_fail_from (env : Env) (tes : List Text) (width x y0 : ScaledPoint) (k : Nat)
    (bad : Text) (e : Err) (hk : tes[k]? = some bad) (hbad : shapeError env width bad = some e)
    (hpre : ∀ (j : Nat) (te : Text), j < k → tes[j]? = some te →
      shapes env width te = true ∧
      lengthOrUnset (getSetting te.Settings SettingType.SettingMarginBottom) = true)
    (htop : ∀ (j : Nat) (te : Text), j ≤ k → tes[j]? = some te →
      lengthOrUnset (getSetting te.Settings SettingType.SettingMarginTop) = true) :
    ∀ (n i : Nat) (d : Document) (page : Page), i + n = k → d.doc.CurrentPage = some page →
      placeLoop env tes width x (tes.drop i) i d (cursorAt env width y0 tes i) = Outcome.ret
        (withPlaced d page ((List.range' i n).map (placedAt env width x y0 tes))
          (((tes.drop i).take (n + 1)).map (shapeEvent width)),
         cursorAt env width y0 tes k, some e) := by
  have hklt : k < tes.length := by
    by_contra hge
    rw [List.getElem?_eq_none (Nat.le_of_not_lt hge)] at hk
    cases hk
  intro n
  induction n with
  | zero =>
    intro i d page hik hpage
    have hi : i = k := by omega
    subst hi
    have hbadEq : tes[i] = bad := by
      rw [List.getElem?_eq_getElem hklt] at hk
      exact Option.some.inj hk
    rw [List.drop_eq_getElem_cons hklt, hbadEq]
    unfold placeLoop
    rw [placeStep_fail env tes width x i bad d _ e hbad, Outcome.bind_ret]
    simp [withPlaced_no_objects d page _ hpage]
  | succ n ih =>
    intro i d page hik hpage
    have hilt : i < tes.length := by omega
    have hi : tes[i]? = some tes[i] := List.getElem?_eq_getElem hilt
    have hmt : ∀ next, tes[i + 1]? = some next →
        lengthOrUnset (getSetting next.Settings SettingType.SettingMarginTop) = true := by
      intro next hn
      exact htop (i + 1) next (by omega) hn
    have hp := hpre i tes[i] (by omega) hi
    have hstep := placeStep_eq env tes width x i tes[i] d (cursorAt env width y0 tes i) page hpage
      hp.1 hp.2 hmt
    have hobj : (⟨x, cursorAt env width y0 tes i, shaped env width tes[i]⟩ : PlacedObject) =
        placedAt env width x y0 tes i := by
      simp [placedAt, hi]
    rw [List.drop_eq_getElem_cons hilt]
    unfold placeLoop
    rw [hstep, Outcome.bind_ret]
    simp only []
    rw [cursorAt_step env width y0 tes i tes[i] hi]
    have hpage1 : (withPlaced d page [⟨x, cursorAt env width y0 tes i, shaped env width tes[i]⟩]
        [shapeEvent width tes[i]]).doc.CurrentPage =
        some { page with Objects := page.Objects ++
          [⟨x, cursorAt env width y0 tes i, shaped env width tes[i]⟩] } := rfl
    rw [ih (i + 1) _ _ (by omega) hpage1, withPlaced_withPlaced, hobj]
    simp only [List.range'_succ, List.map_cons, List.take_succ_cons, List.singleton_append]

theorem mem_take_of_getElem? {l : List Text} {j k : Nat} {te : Text} (hj : j < k)
    (h : l[j]? = some te) : te ∈ l.take k := by
  apply List.getElem?_mem (n := j)
  rw [List.getElem?_take_of_lt hj]
  exact h

theorem filter_shapeEvent (width : ScaledPoint) (l : List Text) :
    (l.map (shapeEvent width)).filter isShapeCall = l.map (shapeEvent width) := by
  induction l with
  | nil => rfl
  | cons te rest ih => simp [shapeEvent, isShapeCall, ih]

theorem shapeCalls_withPlaced (d : Document) (page : Page) (objs : List PlacedObject)
    (width : ScaledPoint) (l : List Text) :
    shapeCalls (withPlaced d page objs (l.map (shapeEvent width))) =
      shapeCalls d ++ l.map (shapeEvent width) := by
  simp [shapeCalls, withPlaced, filter_shapeEvent]

theorem placedObjects_withPlaced (d : Document) (page : Page) (objs : List PlacedObject)
    (evs : List Event) (hpage : d.doc.CurrentPage = some page) :
    placedObjects (withPlaced d page objs evs) = placedObjects d ++ objs := by
  simp [placedObjects, withPlaced, hpage]

/-- C11. Typesetter fail-fast without rollback or drain: when block `k` of the
pending queue is the first block the typesetter fails on, `OutputAt` returns
the error of the typesetter; the page has got exactly the placements of
blocks `0` to `k-1`, at the coordinates of a run without failure, and none for
block `k` or a later one; the typesetter was called on blocks `0` to `k` and on
no block after `k`; and the pending queue is left as it was, not cleared. -/
theorem outputAt_fail_fast (env : Env) (d d1 q : Document) (html : String)
    (width x y : ScaledPoint) (k : Nat) (bad : Text) (e : Err)
    (hinit : initPage env d = Outcome.ret (d1, none))
    (hread : readContent env d1 html width = (q, none))
    (hk : q.te[k]? = some bad) (hbad : shapeError env width bad = some e)
    (hpre : ∀ te ∈ q.te.take k, shapes env width te = true ∧
      lengthOrUnset (getSetting te.Settings SettingType.SettingMarginBottom) = true)
    (htop : ∀ te ∈ q.te.take (k + 1),
      lengthOrUnset (getSetting te.Settings SettingType.SettingMarginTop) = true) :
    ∃ (page : Page) (d2 : Document), q.doc.CurrentPage = some page ∧
      OutputAt env d html width x y = Outcome.ret (d2, some e) ∧
      d2 = withPlaced q page ((List.range k).map (placedAt env width x y q.te))
        ((q.te.take (k + 1)).map (shapeEvent width)) ∧
      d2.te = q.te ∧
      placedObjects d2 = placedObjects q ++ (List.range k).map (placedAt env width x y q.te) ∧
      ((List.range k).map (placedAt env width x y q.te)).length = k ∧
      shapeCalls d2 = shapeCalls q ++ (q.te.take (k + 1)).map (shapeEvent width) := by
  have hdoc : q.doc = d1.doc := by
    have := (readContent_frame env d1 html width).1
    rw [hread] at this
    exact this
  have hsome : q.doc.CurrentPage ≠ none := by
    rw [hdoc]
    exact initPage_ok_page env d d1 hinit
  obtain ⟨page, hpage⟩ := Option.ne_none_iff_exists'.mp hsome
  have hloop := placeLoop_fail_from env q.te width x y k bad e hk hbad
    (fun j te hj h => hpre te (mem_take_of_getElem? hj h))
    (fun j te hj h => htop te (mem_take_of_getElem? (Nat.lt_succ_of_le hj) h)) k 0 q page
    (by omega) hpage
  simp only [List.drop_zero] at hloop
  rw [← List.range_eq_range'] at hloop
  have hloop0 : placeLoop env q.te width x q.te 0 q y = _ := hloop
  refine ⟨page, _, hpage, ?_, rfl, rfl, placedObjects_withPlaced q page _ _ hpage, by simp,
    shapeCalls_withPlaced q page _ width _⟩
  unfold OutputAt
  rw [hinit, Outcome.bind_ret]
  simp only [hread]
  rw [hloop0, Outcome.bind_ret]

/-- Witness for C11: the fragment `fail` yields block A, the block that cannot
be shaped and block B; the placement returns the error `overflow`. -/
theorem outputAt_fail_fast_witness :
    ∃ (page : Page) (d2 : Document),
      OutputAt queueEnv (freshDoc noStyle) "fail" (400 * pt) 0 (800 * pt) =
        Outcome.ret (d2, some "overflow") ∧
      d2.te = [blockA, overflowBlock, blockB] ∧
      d2.doc.CurrentPage = some { page with Objects :=
        (page.Objects ++
          (List.range 1).map
            (placedAt queueEnv (400 * pt) 0 (800 * pt) [blockA, overflowBlock, blockB])) } := by
  obtain ⟨page, d2, _, h, hd2, hte, _⟩ := outputAt_fail_fast queueEnv (freshDoc noStyle) resolvedDoc
    (readContent queueEnv resolvedDoc "fail" (400 * pt)).1 "fail" (400 * pt) 0 (800 * pt) 1
    overflowBlock "overflow" rfl rfl rfl rfl (by decide) (by decide)
  subst hd2
  exact ⟨page, _, h, hte, rfl⟩

/-- The failing sample run, evaluated: block A alone is on the page, at 800pt,
and the three blocks are still queued. -/
theorem outputAt_fail_sample_run :
    (OutputAt queueEnv (freshDoc noStyle) "fail" (400 * pt) 0 (800 * pt)).bind
        (fun r => Outcome.ret (placedObjects r.1, r.1.te, (shapeCalls r.1).length, r.2)) =
      Outcome.ret
        ([⟨0, 800 * pt, ⟨400 * pt, 10 * pt, 2 * pt⟩⟩], [blockA, overflowBlock, blockB], 2,
         some "overflow") := by
  decide

/-- What a call of `OutputAt` that returns no error has done. -/
theorem OutputAt_ok_cases (env : Env) (d d1 : Document) (html : String) (width x y : ScaledPoint)
    (h : OutputAt env d html width x y = Outcome.ret (d1, none)) :
    ∃ (r l : Document) (c : ScaledPoint), initPage env d = Outcome.ret (r, none) ∧
      (readContent env r html width).2 = none ∧
      placeLoop env (readContent env r html width).1.te width x
        (readContent env r html width).1.te 0 (readContent env r html width).1 y =
          Outcome.ret (l, c, none) ∧
      d1 = { l with te := [] } := by
  unfold OutputAt at h
  cases hi : initPage env d with
  | panic => simp [hi] at h
  | ret r =>
    obtain ⟨r1, re⟩ := r
    simp only [hi, Outcome.bind_ret] at h
    cases re with
    | some e => simp at h
    | none =>
      simp only [] at h
      cases he : (readContent env r1 html width).2 with
      | some e => simp [he] at h
      | none =>
        simp only [he] at h
        cases hl : placeLoop env (readContent env r1 html width).1.te width x
            (readContent env r1 html width).1.te 0 (readContent env r1 html width).1 y with
        | panic => simp [hl] at h
        | ret l =>
          obtain ⟨l1, c, le⟩ := l
          simp only [hl, Outcome.bind_ret] at h
          cases le with
          | some e => simp at h
          | none =>
            simp only [] at h
            injection h with h
            injection h with h1 _
            exact ⟨r1, l1, c, rfl, he, hl, h1.symm⟩

/-- Reading the content makes no call of the typesetter. -/
theorem readContent_shapeCalls (env : Env) (d : Document) (html : String) (width : ScaledPoint) :
    shapeCalls (readContent env d html width).1 = shapeCalls d := by
  unfold readContent
  cases (env.ReadHTMLChunk d.c html).2 with
  | some e => simp [shapeCalls, isShapeCall]
  | none =>
    dsimp only
    cases (env.ApplyCSS (env.ReadHTMLChunk d.c html).1).2 with
    | error e => simp [shapeCalls, isShapeCall]
    | ok sel => simp [shapeCalls, isShapeCall]

/-- C12. Queue drains exactly once: after every call of `OutputAt` that
returns no error the pending queue is empty, whatever the number of blocks it
held; so a call that follows at once and whose content adds no block to the
queue returns no error, makes no call of the typesetter and no placement. -/
theorem queue_drains_once (env : Env) (d d1 : Document) (html : String) (width x y : ScaledPoint)
    (h : OutputAt env d html width x y = Outcome.ret (d1, none)) :
    d1.te = [] ∧
    ∀ (html2 : String) (width2 x2 y2 : ScaledPoint),
      (readContent env d1 html2 width2).2 = none →
      (readContent env d1 html2 width2).1.te = d1.te →
      ∃ d2, OutputAt env d1 html2 width2 x2 y2 = Outcome.ret (d2, none) ∧
        d2.te = [] ∧ d2.doc = d1.doc ∧ placedObjects d2 = placedObjects d1 ∧
        shapeCalls d2 = shapeCalls d1 := by
  obtain ⟨r, l, c, hi, he, hl, hd1⟩ := OutputAt_ok_cases env d d1 html width x y h
  have hr := initPage_ok_page env d r hi
  have hq := readContent_kept env r html width hr
  have hk := placeLoop_frame env _ width x _ 0 _ y (l, c, none) hq.1 hl
  have hpage1 : d1.doc.CurrentPage ≠ none := by
    rw [hd1]
    exact hk.1
  have hte : d1.te = [] := by rw [hd1]
  refine ⟨hte, ?_⟩
  intro html2 width2 x2 y2 he2 hsame
  have hq2 : (readContent env d1 html2 width2).1.te = [] := by rw [hsame, hte]
  have hdoc := (readContent_frame env d1 html2 width2).1
  refine ⟨{ (readContent env d1 html2 width2).1 with te := [] }, ?_, rfl, hdoc, ?_, ?_⟩
  · unfold OutputAt
    rw [initPage_of_page env d1 hpage1, Outcome.bind_ret]
    simp only [he2, hq2, placeLoop, Outcome.bind_ret]
  · simp only [placedObjects, hdoc]
  · exact readContent_shapeCalls env d1 html2 width2

/-- Witness for C12: after the fragment `some` was placed, the fragment `none`,
which yields no block, is placed on the drained document. -/
theorem queue_drains_once_witness :
    drainedDoc.te = [] ∧
    ∃ d2, OutputAt queueEnv drainedDoc "none" (400 * pt) 0 (800 * pt) = Outcome.ret (d2, none) ∧
      placedObjects d2 = placedObjects drainedDoc ∧ shapeCalls d2 = shapeCalls drainedDoc := by
  have h := queue_drains_once queueEnv (freshDoc noStyle) drainedDoc "some" (400 * pt) 0 (800 * pt)
    (by decide)
  obtain ⟨d2, h1, _, _, h3, h4⟩ := h.2 "none" (400 * pt) 0 (800 * pt) (by decide) (by decide)
  exact ⟨h.1, d2, h1, h3, h4⟩

/-- The sample of property P6, evaluated: the first call places two blocks,
the repeated call with no new block places none and shapes none. -/
theorem queue_drains_sample_run :
    (placedObjects drainedDoc).length = 2 ∧ (shapeCalls drainedDoc).length = 2 ∧
    (OutputAt queueEnv drainedDoc "none" (400 * pt) 0 (800 * pt)).bind
        (fun r => Outcome.ret ((placedObjects r.1).length, (shapeCalls r.1).length, r.1.te, r.2)) =
      Outcome.ret (2, 2, [], none) := by
  decide

/-- C13. Indent options: with the settings of a block typed as the data model
has them, the options the block is shaped with hold a left-indent option
exactly when the settings hold `indentLeft`; the option carries the amount of
`indentLeft` and the row count `indentLeftRows`, 1 when that key is absent;
these are the options of the typesetter call the loop body makes; and a block
without `indentLeft` is shaped with no option, whatever `indentLeftRows` holds. -/
theorem indent_options (env : Env) (te : Text) (indent : Option ScaledPoint) (rows : Option Int)
    (hind : getSetting te.Settings SettingType.SettingIndentLeft =
      indent.map SettingValue.scaledPoint)
    (hrows : getSetting te.Settings SettingType.SettingIndentLeftRows =
      rows.map SettingValue.int) :
    indentOptions te = Outcome.ret (specIndent indent rows) ∧
    ((∃ a r, TypesettingOption.IndentLeft a r ∈ specIndent indent rows) ↔
      (getSetting te.Settings SettingType.SettingIndentLeft).isSome = true) ∧
    (∀ a, indent = some a →
      specIndent indent rows = [TypesettingOption.IndentLeft a (rows.getD 1)]) ∧
    (∀ (tes : List Text) (width x y : ScaledPoint) (i : Nat) (d : Document)
        (r : Document × ScaledPoint × Option Err),
      placeStep env tes width x i te d y = Outcome.ret r →
        shapeCalls r.1 =
          shapeCalls d ++ [Event.formatParagraph te width (specIndent indent rows)]) ∧
    (∀ te2 : Text, getSetting te2.Settings SettingType.SettingIndentLeft = none →
      indentOptions te2 = Outcome.ret []) := by
  have hopts : indentOptions te = Outcome.ret (specIndent indent rows) := by
    unfold indentOptions specIndent
    cases indent with
    | none => simp [hind]
    | some a =>
      cases rows with
      | none => simp [hind, hrows]
      | some r => simp [hind, hrows]
  refine ⟨hopts, ?_, ?_, ?_, ?_⟩
  · cases indent with
    | none => simp [specIndent, hind]
    | some a => simp [specIndent, hind]
  · intro a ha
    subst ha
    rfl
  · intro tes width x y i d r h
    unfold placeStep at h
    rw [hopts, Outcome.bind_ret] at h
    cases hf : env.FormatParagraph te width (specIndent indent rows) with
    | error e =>
      simp only [hf] at h
      injection h with h
      subst h
      simp [shapeCalls, isShapeCall]
    | ok vl =>
      simp only [hf] at h
      cases hp : d.doc.CurrentPage with
      | none => simp [hp] at h
      | some page =>
        simp only [hp] at h
        cases ha : additionalMargin tes i te with
        | panic => simp [ha] at h
        | ret am =>
          simp only [ha, Outcome.bind_ret] at h
          injection h with h
          subst h
          simp [shapeCalls, isShapeCall]
  · intro te2 h2
    unfold indentOptions
    simp [h2]

/-- Witness for C13 (P5): a left indent of 12pt without a row count is shaped
with the row count 1. -/
theorem indent_options_witness :
    indentOptions indentBlock = Outcome.ret [TypesettingOption.IndentLeft (12 * pt) 1] :=
  (indent_options sampleEnv indentBlock (some (12 * pt)) none rfl rfl).1

/-- The sample blocks, evaluated: a row count without a left indent gives no
option, and the typesetter call of the indented block carries the row count 1. -/
theorem indent_sample_run :
    indentOptions rowsOnlyBlock = Outcome.ret [] ∧
    (placeStep sampleEnv [indentBlock] (400 * pt) 0 0 indentBlock activeDoc (800 * pt)).bind
        (fun r => Outcome.ret (shapeCalls r.1)) =
      Outcome.ret
        [Event.formatParagraph indentBlock (400 * pt) [TypesettingOption.IndentLeft (12 * pt) 1]] := by
  decide

/-! ## Dimension resolver: effects and errors -/

/-- What the first resolution leaves behind when it returns no error. -/
theorem initPage_first (env : Env) (d d1 : Document) (hpage : d.doc.CurrentPage = none)
    (h : initPage env d = Outcome.ret (d1, none)) :
    d1.doc.DefaultPageWidth = d1.currentPageDimensions.Width ∧
    d1.doc.DefaultPageHeight = d1.currentPageDimensions.Height ∧
    d1.doc.CurrentPage = some
      { Width := d1.currentPageDimensions.Width, Height := d1.currentPageDimensions.Height,
        Objects := [] } ∧
    d1.trace = d.trace ++ [Event.newPage] := by
  cases hs : getPage d.c.Pages "" with
  | some p =>
    unfold initPage at h
    simp only [hpage, hs] at h
    split at h
    · simp at h
    · split at h
      · simp at h
      · split at h
        · simp at h
        · split at h
          · simp at h
          · split at h
            · simp at h
            · split at h
              · simp at h
              · injection h with h
                injection h with h1 _
                subst h1
                simp [NewPage]
  | none =>
    unfold initPage at h
    simp only [hpage, hs] at h
    cases hw : MustSp env "210mm" with
    | panic => simp [hw] at h
    | ret w =>
      cases hh : MustSp env "297mm" with
      | panic => simp [hw, hh] at h
      | ret ht =>
        simp only [hw, hh, Outcome.bind_ret] at h
        injection h with h
        injection h with h1 _
        subst h1
        simp [NewPage]

/-- C14. Successful first resolution effects: when `initPage` returns no error
on a document without a page, afterwards the sink default page width and
height are the stored `PageDimensions.Width` and `PageDimensions.Height`,
exactly one page was created (a new, empty one of that size, now the current
page), and the document has an active page. -/
theorem first_resolution_effects (env : Env) (d d1 : Document)
    (hpage : d.doc.CurrentPage = none) (h : initPage env d = Outcome.ret (d1, none)) :
    d1.doc.DefaultPageWidth = d1.currentPageDimensions.Width ∧
    d1.doc.DefaultPageHeight = d1.currentPageDimensions.Height ∧
    pagesCreated d1 = pagesCreated d + 1 ∧
    d1.trace = d.trace ++ [Event.newPage] ∧
    d1.doc.CurrentPage = some
      { Width := d1.currentPageDimensions.Width, Height := d1.currentPageDimensions.Height,
        Objects := [] } ∧
    d1.doc.CurrentPage ≠ none := by
  obtain ⟨h1, h2, h3, h4⟩ := initPage_first env d d1 hpage h
  refine ⟨h1, h2, ?_, h4, h3, ?_⟩
  · simp [pagesCreated, h4]
  · rw [h3]
    simp

/-- Witness for C14: the fresh sample document without a style. -/
theorem first_resolution_effects_witness :
    resolvedDoc.doc.DefaultPageWidth = resolvedDoc.currentPageDimensions.Width ∧
    resolvedDoc.doc.DefaultPageHeight = resolvedDoc.currentPageDimensions.Height ∧
    pagesCreated resolvedDoc = pagesCreated (freshDoc noStyle) + 1 :=
  ⟨(first_resolution_effects sampleEnv (freshDoc noStyle) resolvedDoc rfl rfl).1,
   (first_resolution_effects sampleEnv (freshDoc noStyle) resolvedDoc rfl rfl).2.1,
   (first_resolution_effects sampleEnv (freshDoc noStyle) resolvedDoc rfl rfl).2.2.1⟩

theorem findSome_literal (env : Env) (s : String) (rest : List String) :
    (s :: rest).findSome? (parseError env) =
      match env.Sp s with
      | Except.error e => some e
      | Except.ok _ => rest.findSome? (parseError env) := by
  simp only [List.findSome?, parseError]
  cases env.Sp s <;> rfl

theorem findSome_margin (env : Env) (s : String) (rest : List String) :
    ((s :: rest).filter (fun s => decide (s ≠ ""))).findSome? (parseError env) =
      match marginSp env s with
      | Except.error e => some e
      | Except.ok _ => (rest.filter (fun s => decide (s ≠ ""))).findSome? (parseError env) := by
  unfold marginSp
  by_cases hs : s = ""
  · simp [hs]
  · have hf : (s :: rest).filter (fun s => decide (s ≠ "")) =
        s :: rest.filter (fun s => decide (s ≠ "")) := by
      simp [List.filter, hs]
    rw [hf, findSome_literal, if_neg hs]

/-- The first parse error of a style, following the order in which `initPage`
parses the literals. -/
theorem firstParseError_eq (env : Env) (p : CSSPage) :
    firstParseError env p =
      match env.Sp (env.PapersizeWdHt p.Papersize).1 with
      | Except.error e => some e
      | Except.ok _ =>
      match env.Sp (env.PapersizeWdHt p.Papersize).2 with
      | Except.error e => some e
      | Except.ok _ =>
      match marginSp env p.MarginTop with
      | Except.error e => some e
      | Except.ok _ =>
      match marginSp env p.MarginBottom with
      | Except.error e => some e
      | Except.ok _ =>
      match marginSp env p.MarginLeft with
      | Except.error e => some e
      | Except.ok _ =>
      match marginSp env p.MarginRight with
      | Except.error e => some e
      | Except.ok _ => none := by
  unfold firstParseError styleLiterals
  simp only [List.cons_append, List.nil_append, findSome_literal, findSome_margin]
  rfl

/-- On the style path an error of `initPage` is the first parse error of the
style, and the document is left as it was. -/
theorem initPage_style_error (env : Env) (d d1 : Document) (p : CSSPage) (e : Err)
    (hpage : d.doc.CurrentPage = none) (hstyle : getPage d.c.Pages "" = some p)
    (h : initPage env d = Outcome.ret (d1, some e)) :
    d1 = d ∧ firstParseError env p = some e := by
  rw [firstParseError_eq]
  revert h
  unfold initPage
  simp only [hpage, hstyle]
  cases env.Sp (env.PapersizeWdHt p.Papersize).1 with
  | error e1 => intro h; simp at h; simp [h.1, h.2]
  | ok wd =>
  cases env.Sp (env.PapersizeWdHt p.Papersize).2 with
  | error e1 => intro h; simp at h; simp [h.1, h.2]
  | ok ht =>
  cases marginSp env p.MarginTop with
  | error e1 => intro h; simp at h; simp [h.1, h.2]
  | ok mt =>
  cases marginSp env p.MarginBottom with
  | error e1 => intro h; simp at h; simp [h.1, h.2]
  | ok mb =>
  cases marginSp env p.MarginLeft with
  | error e1 => intro h; simp at h; simp [h.1, h.2]
  | ok ml =>
  cases marginSp env p.MarginRight with
  | error e1 => intro h; simp at h; simp [h.1, h.2]
  | ok mr => intro h; simp at h

/-- Without a default-page style `initPage` returns no error. -/
theorem initPage_fallback_no_error (env : Env) (d d1 : Document) (e : Err)
    (hpage : d.doc.CurrentPage = none) (hstyle : getPage d.c.Pages "" = none) :
    initPage env d ≠ Outcome.ret (d1, some e) := by
  intro h
  unfold initPage at h
  simp only [hpage, hstyle] at h
  cases hw : MustSp env "210mm" with
  | panic => simp [hw] at h
  | ret w =>
    cases hh : MustSp env "297mm" with
    | panic => simp [hw, hh] at h
    | ret ht => simp [hw, hh] at h

/-- An error of `initPage` leaves the document as it was. -/
theorem initPage_error_same (env : Env) (d d1 : Document) (e : Err)
    (h : initPage env d = Outcome.ret (d1, some e)) : d1 = d ∧ d.doc.CurrentPage = none := by
  cases hp : d.doc.CurrentPage with
  | some pg =>
    rw [initPage_of_page env d (by simp [hp])] at h
    simp at h
  | none =>
    cases hs : getPage d.c.Pages "" with
    | some p => exact ⟨(initPage_style_error env d d1 p e hp hs h).1, rfl⟩
    | none => exact absurd h (initPage_fallback_no_error env d d1 e hp hs)

theorem wellFormed_of_not_malformed {env : Env} {p : CSSPage} (h : ¬ Malformed env p) :
    WellFormed env p := by
  simp only [Malformed, not_or, not_and, Bool.not_eq_false] at h
  obtain ⟨h1, h2, h3, h4, h5, h6⟩ := h
  refine ⟨h1, h2, ?_, ?_, ?_, ?_⟩
  · by_cases hs : p.MarginTop = ""
    · exact Or.inl hs
    · exact Or.inr (h3 hs)
  · by_cases hs : p.MarginBottom = ""
    · exact Or.inl hs
    · exact Or.inr (h4 hs)
  · by_cases hs : p.MarginLeft = ""
    · exact Or.inl hs
    · exact Or.inr (h5 hs)
  · by_cases hs : p.MarginRight = ""
    · exact Or.inl hs
    · exact Or.inr (h6 hs)

theorem initPage_wellFormed (env : Env) (d : Document) (p : CSSPage)
    (hpage : d.doc.CurrentPage = none) (hstyle : getPage d.c.Pages "" = some p)
    (hwf : WellFormed env p) : ∃ d1, initPage env d = Outcome.ret (d1, none) := by
  obtain ⟨hw, hh, ht, hb, hl, hr⟩ := hwf
  obtain ⟨wd, hwd⟩ := parses_eq_true hw
  obtain ⟨ht1, hht⟩ := parses_eq_true hh
  obtain ⟨mt, hmt⟩ := marginSp_of_wellFormed ht
  obtain ⟨mb, hmb⟩ := marginSp_of_wellFormed hb
  obtain ⟨ml, hml⟩ := marginSp_of_wellFormed hl
  obtain ⟨mr, hmr⟩ := marginSp_of_wellFormed hr
  exact ⟨_, initPage_style env d p wd ht1 mt mb ml mr hpage hstyle hwd hht hmt hmb hml hmr⟩

/-- C15. `initPage` fails if and only if a literal is malformed: on a document
without a page, `initPage` returns an error exactly when a default-page style
is present and its width literal, its height literal or a margin literal that
is not empty fails to parse; the error is the parse error of the first
failing literal in the order width, height, top, bottom, left, right; and a
style whose only peculiarity is empty margins gives no error. -/
theorem initPage_error_iff (env : Env) (d : Document) (hpage : d.doc.CurrentPage = none) :
    ((∃ d1 e, initPage env d = Outcome.ret (d1, some e)) ↔
      ∃ p, getPage d.c.Pages "" = some p ∧ Malformed env p) ∧
    (∀ p d1 e, getPage d.c.Pages "" = some p → initPage env d = Outcome.ret (d1, some e) →
      firstParseError env p = some e) ∧
    (∀ p, getPage d.c.Pages "" = some p → Malformed env p →
      ∃ e, firstParseError env p = some e ∧ initPage env d = Outcome.ret (d, some e)) ∧
    (∀ p, getPage d.c.Pages "" = some p →
      parses env (env.PapersizeWdHt p.Papersize).1 = true →
      parses env (env.PapersizeWdHt p.Papersize).2 = true →
      p.MarginTop = "" → p.MarginBottom = "" → p.MarginLeft = "" → p.MarginRight = "" →
      ∃ d1, initPage env d = Outcome.ret (d1, none)) := by
  refine ⟨⟨?_, ?_⟩, ?_, ?_, ?_⟩
  · rintro ⟨d1, e, h⟩
    cases hs : getPage d.c.Pages "" with
    | none => exact absurd h (initPage_fallback_no_error env d d1 e hpage hs)
    | some p =>
      refine ⟨p, rfl, ?_⟩
      by_contra hbad
      obtain ⟨d2, h2⟩ := initPage_wellFormed env d p hpage hs (wellFormed_of_not_malformed hbad)
      rw [h2] at h
      simp at h
  · rintro ⟨p, hs, hbad⟩
    obtain ⟨e, he⟩ := initPage_malformed env d p hpage hs hbad
    exact ⟨d, e, he⟩
  · intro p d1 e hs h
    exact (initPage_style_error env d d1 p e hpage hs h).2
  · intro p hs hbad
    obtain ⟨e, he⟩ := initPage_malformed env d p hpage hs hbad
    exact ⟨e, (initPage_style_error env d d p e hpage hs he).2, he⟩
  · intro p hs hw hh h1 h2 h3 h4
    exact initPage_wellFormed env d p hpage hs
      ⟨hw, hh, Or.inl h1, Or.inl h2, Or.inl h3, Or.inl h4⟩

/-- Witness for C15: the sample style with the malformed left margin; the
error is the one of the parser on that literal. -/
theorem initPage_error_iff_witness :
    firstParseError sampleEnv badPage = some "unknown unit" ∧
    initPage sampleEnv (freshDoc (styleOf badPage)) =
      Outcome.ret (freshDoc (styleOf badPage), some "unknown unit") := by
  obtain ⟨e, h1, h2⟩ := (initPage_error_iff sampleEnv (freshDoc (styleOf badPage)) rfl).2.2.1
    badPage rfl (Or.inr (Or.inr (Or.inr (Or.inr (Or.inl ⟨by decide, by decide⟩)))))
  have he : e = "unknown unit" := by
    have h3 : firstParseError sampleEnv badPage = some "unknown unit" := by decide
    rw [h3] at h1
    exact (Option.some.inj h1).symm
  subst he
  exact ⟨h1, h2⟩

/-- The sample style with two malformed margins, evaluated: the error is the
one of the bottom margin, which is parsed before the left margin. -/
theorem initPage_first_error_sample :
    initPage namingEnv (freshDoc (styleOf twoBadPage)) =
      Outcome.ret (freshDoc (styleOf twoBadPage), some "1 ell") := by
  decide

/-- C16. `OutputAt` propagates the error of the resolver unchanged: when
`initPage` returns the error `e`, `OutputAt` returns `e` and leaves the
document as it was: no content parsing call and no typesetter call was made,
nothing was placed, and the pending queue and the geometry are untouched. -/
theorem outputAt_propagates (env : Env) (d d1 : Document) (e : Err) (html : String)
    (width x y : ScaledPoint) (h : initPage env d = Outcome.ret (d1, some e)) :
    OutputAt env d html width x y = Outcome.ret (d, some e) ∧
    d1 = d ∧
    ∀ d2 r, OutputAt env d html width x y = Outcome.ret (d2, r) →
      r = some e ∧ d2.trace = d.trace ∧
      d2.trace.filter isContentCall = d.trace.filter isContentCall ∧
      shapeCalls d2 = shapeCalls d ∧ placedObjects d2 = placedObjects d ∧
      d2.te = d.te ∧ d2.currentPageDimensions = d.currentPageDimensions ∧
      d2.doc = d.doc := by
  have hsame := (initPage_error_same env d d1 e h).1
  subst hsame
  have hout : OutputAt env d1 html width x y = Outcome.ret (d1, some e) := by
    unfold OutputAt
    rw [h, Outcome.bind_ret]
  refine ⟨hout, rfl, ?_⟩
  intro d2 r h2
  rw [hout] at h2
  injection h2 with h2
  injection h2 with hd hr
  subst hd
  exact ⟨hr.symm, rfl, rfl, rfl, rfl, rfl, rfl, rfl⟩

/-- Witness for C16: a placement on the sample document with the malformed
left margin. -/
theorem outputAt_propagates_witness :
    OutputAt sampleEnv (freshDoc (styleOf badPage)) "two" (400 * pt) 0 (800 * pt) =
      Outcome.ret (freshDoc (styleOf badPage), some "unknown unit") :=
  (outputAt_propagates sampleEnv (freshDoc (styleOf badPage)) (freshDoc (styleOf badPage))
    "unknown unit" "two" (400 * pt) 0 (800 * pt) (by decide)).1

/-- C17. `PageSize` contract: `PageSize` runs `initPage` first; when that
returns the error `e`, `PageSize` returns the all-zero `PageDimensions` and
`e`; when it returns no error, `PageSize` returns no error and the stored
`PageDimensions` of the document; and a second `PageSize` call after one that
returned no error returns the same dimensions again. -/
theorem pageSize_contract (env : Env) (d : Document) :
    (∀ d1 e, initPage env d = Outcome.ret (d1, some e) →
      PageSize env d = Outcome.ret (d1, PageDimensions.zero, some e)) ∧
    (∀ d1, initPage env d = Outcome.ret (d1, none) →
      PageSize env d = Outcome.ret (d1, d1.currentPageDimensions, none)) ∧
    (initPage env d = Outcome.panic → PageSize env d = Outcome.panic) ∧
    (∀ d1 dims r, PageSize env d = Outcome.ret (d1, dims, r) →
      initPage env d = Outcome.ret (d1, r)) ∧
    (∀ d1 dims, PageSize env d = Outcome.ret (d1, dims, none) →
      dims = d1.currentPageDimensions ∧
      PageSize env d1 = Outcome.ret (d1, dims, none)) ∧
    PageDimensions.zero = ⟨0, 0, 0, 0, 0, 0⟩ := by
  have hret : ∀ d1 dims r, PageSize env d = Outcome.ret (d1, dims, r) →
      initPage env d = Outcome.ret (d1, r) ∧ (r = none → dims = d1.currentPageDimensions) := by
    intro d1 dims r h
    unfold PageSize at h
    cases hi : initPage env d with
    | panic => simp [hi] at h
    | ret p =>
      obtain ⟨p1, pe⟩ := p
      simp only [hi, Outcome.bind_ret] at h
      cases pe with
      | some e =>
        simp only [] at h
        injection h with h
        injection h with h1 h2
        injection h2 with h2 h3
        subst h1 h3
        exact ⟨rfl, fun hn => by cases hn⟩
      | none =>
        simp only [] at h
        injection h with h
        injection h with h1 h2
        injection h2 with h2 h3
        subst h1 h3
        exact ⟨rfl, fun _ => h2.symm⟩
  refine ⟨?_, ?_, ?_, fun d1 dims r h => (hret d1 dims r h).1, ?_, rfl⟩
  · intro d1 e h
    unfold PageSize
    rw [h, Outcome.bind_ret]
  · intro d1 h
    unfold PageSize
    rw [h, Outcome.bind_ret]
  · intro h
    unfold PageSize
    rw [h, Outcome.bind_panic]
  · intro d1 dims h
    obtain ⟨hi, hd⟩ := hret d1 dims none h
    have hdims := hd rfl
    refine ⟨hdims, ?_⟩
    unfold PageSize
    rw [initPage_of_page env d1 (initPage_ok_page env d d1 hi), Outcome.bind_ret, hdims]

/-- The sample documents, evaluated: the size query resolves the A4 geometry
with 1cm margins on the document without a style, and returns the all-zero
dimensions with the parse error on the one with the malformed margin. -/
theorem pageSize_sample_run :
    PageSize sampleEnv (freshDoc noStyle) =
      Outcome.ret (resolvedDoc, ⟨39011981, 55174088, 1857713, 1857713, 1857713, 1857713⟩, none) ∧
    PageSize sampleEnv (freshDoc (styleOf badPage)) =
      Outcome.ret (freshDoc (styleOf badPage), ⟨0, 0, 0, 0, 0, 0⟩, some "unknown unit") := by
  decide

/-! ## Flow placer: order of the placements -/

theorem nonNegative_eq {env : Env} {width : ScaledPoint} {te : Text}
    (h : nonNegative env width te = true) :
    0 ≤ (shaped env width te).Height ∧ 0 ≤ (shaped env width te).Depth ∧
    0 ≤ (declared te SettingType.SettingMarginTop).getD 0 ∧
    0 ≤ (declared te SettingType.SettingMarginBottom).getD 0 := by
  unfold nonNegative at h
  simp only [Bool.and_eq_true, decide_eq_true_eq] at h
  exact ⟨h.1.1.1, h.1.1.2, h.1.2, h.2⟩

theorem collapsedGap_nonneg (te : Text) (next : Option Text)
    (hb : 0 ≤ (declared te SettingType.SettingMarginBottom).getD 0)
    (ht : ∀ n, next = some n → 0 ≤ (declared n SettingType.SettingMarginTop).getD 0) :
    0 ≤ collapsedGap te next := by
  unfold collapsedGap
  cases next with
  | none => exact hb
  | some n =>
    simp only []
    cases hd : declared n SettingType.SettingMarginTop with
    | none => exact hb
    | some mt => exact le_max_of_le_left hb

theorem advance_nonneg (env : Env) (width : ScaledPoint) (tes : List Text)
    (hall : ∀ te ∈ tes, nonNegative env width te = true) (j : Nat) :
    0 ≤ advance env width tes j := by
  unfold advance
  cases hj : tes[j]? with
  | none => exact le_refl _
  | some te =>
    obtain ⟨h1, h2, _, h4⟩ := nonNegative_eq (hall te (List.getElem?_mem hj))
    have h5 := collapsedGap_nonneg te tes[j + 1]? h4
      (fun n hn => (nonNegative_eq (hall n (List.getElem?_mem hn))).2.2.1)
    simp only []
    linarith

theorem offset_mono (env : Env) (width : ScaledPoint) (tes : List Text)
    (hall : ∀ te ∈ tes, nonNegative env width te = true) :
    ∀ (k j : Nat), j ≤ k → offset env width tes j ≤ offset env width tes k := by
  intro k
  induction k with
  | zero =>
    intro j hj
    have : j = 0 := by omega
    subst this
    exact le_refl _
  | succ k ih =>
    intro j hj
    by_cases hjk : j = k + 1
    · subst hjk
      exact le_refl _
    · have h1 := ih j (by omega)
      have h2 := advance_nonneg env width tes hall k
      simp only [offset]
      linarith

/-- C18 as claimed fails: two blocks without settings, each 10pt high and 2pt
deep, nothing negative, placed with the cursor at the least Length value plus
100.  The first block is placed at that cursor and the second at
9223372036853989476, far above it, and the loop leaves with the cursor
9223372036853203044, above `y`: the subtractions wrapped around.  The same
happens through `OutputAt` with the fragment `some`, whose second block
declares a top margin of 8pt. -/
theorem placements_order_overflow_counterexample :
    (placeLoop sampleEnv [plainBlock, plainBlock] (400 * pt) 0 [plainBlock, plainBlock] 0
        activeDoc (minSP + 100)).bind
        (fun r => Outcome.ret ((placedObjects r.1).map PlacedObject.Y, r.2.1, r.2.2)) =
      Outcome.ret ([minSP + 100, 9223372036853989476], 9223372036853203044, none) ∧
    nonNegative sampleEnv (400 * pt) plainBlock = true ∧
    shapes sampleEnv (400 * pt) plainBlock = true ∧
    ¬ ((9223372036853989476 : Int) ≤ minSP + 100) ∧
    ¬ ((9223372036853203044 : Int) ≤ minSP + 100) ∧
    (OutputAt queueEnv (freshDoc noStyle) "some" (400 * pt) 0 (minSP + 100)).bind
        (fun r => Outcome.ret ((placedObjects r.1).map PlacedObject.Y, r.2)) =
      Outcome.ret ([minSP + 100, 9223372036853465188], none) ∧
    nonNegative queueEnv (400 * pt) blockB = true := by
  decide

/-- C18 (amended). Top-to-bottom order: when every block of the pending queue
shapes, its height, depth and declared margins are not negative, and the
cursor `y` of the caller less the heights, depths and gaps of all blocks is
still a value of the fixed-width Length type (no subtraction wraps around),
the y-coordinates at which `OutputAt` places the blocks do not increase along
the queue, none of them is above `y`, and the loop leaves with a cursor that
is at most `y`. -/
theorem placements_top_to_bottom (env : Env) (d d1 q : Document) (html : String)
    (width x y : ScaledPoint)
    (hinit : initPage env d = Outcome.ret (d1, none))
    (hread : readContent env d1 html width = (q, none))
    (hall : ∀ te ∈ q.te, shapes env width te = true ∧ marginsTyped te = true)
    (hpos : ∀ te ∈ q.te, nonNegative env width te = true)
    (hy : InRange y) (hlow : InRange (y - offset env width q.te q.te.length)) :
    ∃ (page : Page) (c : ScaledPoint), q.doc.CurrentPage = some page ∧
      OutputAt env d html width x y = Outcome.ret
        ({ withPlaced q page ((List.range q.te.length).map (placedAt env width x y q.te))
            (q.te.map (shapeEvent width)) with te := [] }, none) ∧
      placeLoop env q.te width x q.te 0 q y = Outcome.ret
        (withPlaced q page ((List.range q.te.length).map (placedAt env width x y q.te))
          (q.te.map (shapeEvent width)), c, none) ∧
      c ≤ y ∧
      (∀ j k, j ≤ k → k < q.te.length →
        (placedAt env width x y q.te k).Y ≤ (placedAt env width x y q.te j).Y) ∧
      (∀ k, k < q.te.length → (placedAt env width x y q.te k).Y ≤ y) ∧
      List.Pairwise (fun a b => b.Y ≤ a.Y)
        ((List.range q.te.length).map (placedAt env width x y q.te)) := by
  have hdoc : q.doc = d1.doc := by
    have := (readContent_frame env d1 html width).1
    rw [hread] at this
    exact this
  have hsome : q.doc.CurrentPage ≠ none := by
    rw [hdoc]
    exact initPage_ok_page env d d1 hinit
  obtain ⟨page, hpage⟩ := Option.ne_none_iff_exists'.mp hsome
  have hloop := placeLoop_all env q.te width x y q page hpage hall
  have h0 : ∀ k, 0 ≤ offset env width q.te k := by
    intro k
    have := offset_mono env width q.te hpos k 0 (Nat.zero_le k)
    simpa [offset] using this
  have hrange : ∀ k, k ≤ q.te.length → InRange (y - offset env width q.te k) := by
    intro k hk
    have h1 := offset_mono env width q.te hpos q.te.length k hk
    have h2 := h0 k
    unfold InRange at hy hlow ⊢
    constructor
    · linarith [hlow.1]
    · linarith [hy.2]
  have hcur : ∀ k, k ≤ q.te.length →
      cursorAt env width y q.te k = y - offset env width q.te k := by
    intro k hk
    exact cursorAt_exact env width y q.te k (hrange k hk)
  have hY : ∀ k, k < q.te.length →
      (placedAt env width x y q.te k).Y = y - offset env width q.te k := by
    intro k hk
    simp [placedAt, List.getElem?_eq_getElem hk, hcur k (le_of_lt hk)]
  have hmono : ∀ j k, j ≤ k → k < q.te.length →
      (placedAt env width x y q.te k).Y ≤ (placedAt env width x y q.te j).Y := by
    intro j k hjk hk
    rw [hY k hk, hY j (by omega)]
    have := offset_mono env width q.te hpos k j hjk
    linarith
  refine ⟨page, cursorAt env width y q.te q.te.length, hpage, ?_, hloop, ?_, hmono, ?_, ?_⟩
  · unfold OutputAt
    rw [hinit, Outcome.bind_ret]
    simp only [hread]
    rw [hloop, Outcome.bind_ret]
  · rw [hcur q.te.length (le_refl _)]
    have := h0 q.te.length
    linarith
  · intro k hk
    rw [hY k hk]
    have := h0 k
    linarith
  · rw [List.pairwise_map]
    refine List.Pairwise.imp_of_mem ?_ (List.pairwise_lt_range q.te.length)
    intro a b ha hb hab
    exact hmono a b (le_of_lt hab) (List.mem_range.mp hb)

/-- Witness for C18: in the fragment `two` of the sample style source, placed
with the cursor at 800pt, block B is placed no higher than block A. -/
theorem placements_top_to_bottom_witness :
    (placedAt sampleEnv (400 * pt) 0 (800 * pt) [blockA, blockB] 1).Y ≤
      (placedAt sampleEnv (400 * pt) 0 (800 * pt) [blockA, blockB] 0).Y := by
  obtain ⟨_, _, _, _, _, _, h, _⟩ := placements_top_to_bottom sampleEnv (freshDoc noStyle)
    resolvedDoc (readContent sampleEnv resolvedDoc "two" (400 * pt)).1 "two" (400 * pt) 0 (800 * pt)
    rfl rfl (by decide) (by decide) ⟨by decide, by decide⟩ ⟨by decide, by decide⟩
  exact h 0 1 (by decide) (by decide)

/-- Three sample blocks, evaluated: they are placed at 800pt, 780pt and 768pt
and the loop leaves with the cursor at 756pt. -/
theorem top_to_bottom_sample_run :
    (placeLoop sampleEnv threeBlocks (400 * pt) 0 threeBlocks 0 activeDoc (800 * pt)).bind
        (fun r => Outcome.ret ((placedObjects r.1).map PlacedObject.Y, r.2.1, r.2.2)) =
      Outcome.ret ([800 * pt, 780 * pt, 768 * pt], 756 * pt, none) := by
  decide

end Bagme
